import Mathlib

/-!
# WIN Overlay: the state synchronisation engine of `main.js`

A shallow embedding of the state store (`loadConfig`, `saveConfig`,
`applyAndPersist`), the broadcast hub (`broadcastState`, the `connection`
handler), the command dispatcher (`handleWebhookAction`) and the webhook
grammar (`parsePayload`) of `src/main.js`.

Modelling conventions

* A JavaScript number is a `JSNum`: a finite double is held as the rational it
  is, and `Infinity`, `-Infinity` and `NaN` are separate constructors.  Every
  operation that produces a number (`+`, `-`, `parseInt`, `parseFloat`) rounds
  its exact result to the nearest double, ties to even, and gives `Infinity` or
  `-Infinity` on overflow (`roundToDouble`).  The sign of zero is not kept: no
  operation of the program tells `-0` from `0`.
* A JavaScript string is a Lean `String`; the text algorithms work on its
  list of characters.
* The module-level variables `maxWin`, `count`, `theme`, `font`, `fontUrl`,
  `showBg`, `strokeWidth`, `strokeColor` are the record `OverlayState`
  (`count` is the field `current`, the key under which it is stored and sent).
* A function that reads or writes the variables, the file or the sockets takes
  the whole system `Sys` and returns the new one next to its result.
* The file `config.json` is held by what `JSON.parse` makes of its text, and
  `JSON.stringify` followed by `JSON.parse` keeps finite numbers, strings and
  booleans and turns a non-finite number into `null`.
* `decodeURIComponent` is an argument of `parsePayload`; the grammar is stated
  on the decoded text.
* `console.log` / `console.error` are not modelled.
-/

namespace WinOverlay

/-! ## JavaScript values -/

/-- A JavaScript number. -/
inductive JSNum where
  | fin (q : ℚ)
  | posInf
  | negInf
  | nan
  deriving DecidableEq

/-! ### Rounding to a double -/

/-- The number `x * 2 ^ s`. -/
def scale2 (x : ℚ) (s : Int) : ℚ :=
  if 0 ≤ s then x * (2 : ℚ) ^ s.toNat else x / (2 : ℚ) ^ (-s).toNat

/-- The number of halvings that take `n` below 2, at most `fuel` of them. -/
def log2Fuel : Nat → Nat → Nat
  | 0, _ => 0
  | fuel + 1, n => if n < 2 then 0 else log2Fuel fuel (n / 2) + 1

/-- The natural number `k` with `2 ^ k <= n < 2 ^ (k + 1)`, for a positive `n`. -/
def natLog2 (n : Nat) : Nat := log2Fuel n n

/-- The integer `e` with `2 ^ e <= a < 2 ^ (e + 1)`, for a positive `a`. -/
def floorLog2 (a : ℚ) : Int :=
  let e0 : Int := (natLog2 a.num.natAbs : Int) - (natLog2 a.den : Int)
  if scale2 1 e0 ≤ a then e0 else e0 - 1

/-- The integer nearest to `x`, the even one of the two when `x` lies halfway. -/
def roundHalfEven (x : ℚ) : Int :=
  let f := ⌊x⌋
  let r := x - f
  if r < 1 / 2 then f else if 1 / 2 < r then f + 1 else if f % 2 = 0 then f else f + 1

/-- The magnitude of the double nearest to a positive `a`, ties to even, not yet
cut off at the largest double. -/
def roundMagnitude (a : ℚ) : ℚ :=
  let s := max (floorLog2 a) (-1022) - 52
  scale2 (roundHalfEven (scale2 a (-s))) s

/-- The Number value of a real: the nearest double, ties to even, `Infinity` or
`-Infinity` when the rounded magnitude reaches `2 ^ 1024`. -/
def roundToDouble (q : ℚ) : JSNum :=
  if q = 0 then JSNum.fin 0
  else if 0 < q then
    (if (2 : ℚ) ^ 1024 ≤ roundMagnitude q then JSNum.posInf else JSNum.fin (roundMagnitude q))
  else
    (if (2 : ℚ) ^ 1024 ≤ roundMagnitude (-q) then JSNum.negInf
     else JSNum.fin (-roundMagnitude (-q)))

namespace JSNum

/-- The operator `a < b` on numbers: false as soon as one side is `NaN`. -/
def lt : JSNum → JSNum → Bool
  | fin a, fin b => decide (a < b)
  | fin _, posInf => true
  | negInf, fin _ => true
  | negInf, posInf => true
  | _, _ => false

/-- The operator `a > b`. -/
def gt (a b : JSNum) : Bool := lt b a

/-- The operator `a >= b`: false as soon as one side is `NaN`. -/
def ge : JSNum → JSNum → Bool
  | fin a, fin b => decide (b ≤ a)
  | posInf, fin _ => true
  | posInf, posInf => true
  | posInf, negInf => true
  | fin _, negInf => true
  | negInf, negInf => true
  | _, _ => false

/-- The operator `a + b` on numbers: the exact sum of two finite numbers,
rounded to a double. -/
def add : JSNum → JSNum → JSNum
  | fin a, fin b => roundToDouble (a + b)
  | nan, _ => nan
  | _, nan => nan
  | posInf, negInf => nan
  | negInf, posInf => nan
  | posInf, _ => posInf
  | negInf, _ => negInf
  | fin _, posInf => posInf
  | fin _, negInf => negInf

/-- Unary minus. -/
def neg : JSNum → JSNum
  | fin a => fin (-a)
  | posInf => negInf
  | negInf => posInf
  | nan => nan

/-- The operator `a - b` on numbers. -/
def sub (a b : JSNum) : JSNum := add a (neg b)

/-- The predicate `Number.isFinite` on a value already known to be a number. -/
def isFinite : JSNum → Bool
  | fin _ => true
  | _ => false

end JSNum

/-- A JavaScript value as far as `typeof` and `Number.isFinite` tell values apart:
`object` stands for every array and every non-null object. -/
inductive JSVal where
  | undefined
  | null
  | bool (b : Bool)
  | num (n : JSNum)
  | str (s : String)
  | object
  deriving DecidableEq

namespace JSVal

/-- The expression `Number.isFinite(v) ? v : d`. -/
def finiteOr (v : JSVal) (d : JSNum) : JSNum :=
  match v with
  | num (JSNum.fin q) => JSNum.fin q
  | _ => d

/-- The expression `typeof v === 'number' ? v : d`. -/
def numberOr (v : JSVal) (d : JSNum) : JSNum :=
  match v with
  | num n => n
  | _ => d

/-- The expression `typeof v === 'string' ? v : d`. -/
def stringOr (v : JSVal) (d : String) : String :=
  match v with
  | str s => s
  | _ => d

/-- The expression `typeof v === 'boolean' ? v : d`. -/
def booleanOr (v : JSVal) (d : Bool) : Bool :=
  match v with
  | bool b => b
  | _ => d

end JSVal

/-! ## The data model -/

/-- The eight module-level variables of `main.js`, in the order in which every
snapshot `{ maxWin, current: count, theme, font, fontUrl, showBg, strokeWidth,
strokeColor }` lists them. -/
structure OverlayState where
  maxWin : JSNum
  current : JSNum
  theme : String
  font : String
  fontUrl : String
  showBg : Bool
  strokeWidth : JSNum
  strokeColor : String
  deriving DecidableEq

/-- The values of the variables at module load (lines 62-69). -/
def initialState : OverlayState :=
  { maxWin := JSNum.fin 10
    current := JSNum.fin 0
    theme := "theme-default"
    font := "'Kanit', sans-serif"
    fontUrl := ""
    showBg := true
    strokeWidth := JSNum.fin 2
    strokeColor := "#000000" }

/-- An object read through its eight properties `maxWin`, `current`, `theme`,
`font`, `fontUrl`, `showBg`, `strokeWidth`, `strokeColor`; a property the object
does not have reads as `undefined`.  This is the argument `next` of `saveConfig`
and `applyAndPersist` and the parsed `cfg` of `loadConfig`. -/
structure Patch where
  maxWin : JSVal := JSVal.undefined
  current : JSVal := JSVal.undefined
  theme : JSVal := JSVal.undefined
  font : JSVal := JSVal.undefined
  fontUrl : JSVal := JSVal.undefined
  showBg : JSVal := JSVal.undefined
  strokeWidth : JSVal := JSVal.undefined
  strokeColor : JSVal := JSVal.undefined
  deriving DecidableEq

/-- What `JSON.stringify` writes for a number: a non-finite number becomes `null`. -/
def jsonNum (n : JSNum) : JSVal :=
  match n with
  | JSNum.fin q => JSVal.num (JSNum.fin q)
  | _ => JSVal.null

/-- The object that `JSON.parse` gives back from the text `JSON.stringify` made
of a snapshot. -/
def stringify (s : OverlayState) : Patch :=
  { maxWin := jsonNum s.maxWin
    current := jsonNum s.current
    theme := JSVal.str s.theme
    font := JSVal.str s.font
    fontUrl := JSVal.str s.fontUrl
    showBg := JSVal.bool s.showBg
    strokeWidth := jsonNum s.strokeWidth
    strokeColor := JSVal.str s.strokeColor }

/-- The text of `config.json`, by what `JSON.parse` makes of it. -/
inductive FileContent where
  /-- Text on which `JSON.parse` throws. -/
  | unparseable
  /-- Text that parses to `null`: reading a property of it throws. -/
  | null
  /-- Text that parses to any other value, seen through its eight properties
  (all `undefined` for a number, a string, a boolean or an array). -/
  | value (cfg : Patch)
  deriving DecidableEq

/-- The durable storage: the file `config.json`, and whether reads and writes of
it throw. -/
structure Disk where
  file : Option FileContent
  readFails : Bool := false
  writeFails : Bool := false
  deriving DecidableEq

/-- The message `JSON.stringify({ type, data })` sent on a socket. -/
structure WsMessage where
  type : String
  data : Patch
  deriving DecidableEq

/-- A WebSocket of `wsClients`: its identity, its `readyState` (1 is OPEN) and
the messages `send` was called with on it, oldest first. -/
structure Session where
  id : Nat
  readyState : Nat
  sent : List WsMessage
  deriving DecidableEq

/-- The whole mutable system: the variables, the file and `wsClients`. -/
structure Sys where
  vars : OverlayState
  disk : Disk
  wsClients : List Session
  deriving DecidableEq

/-! ## The state store -/

/-- The call `fs.writeFileSync(CONFIG_PATH, text)`: `none` when it throws. -/
def Disk.writeFileSync (d : Disk) (c : FileContent) : Option Disk :=
  if d.writeFails then none else some { d with file := some c }

/-- The call `fs.readFileSync(CONFIG_PATH)`: `none` when it throws, as it does
on a file that does not exist. -/
def Disk.readFileSync (d : Disk) : Option FileContent :=
  if d.readFails then none else d.file

/-- Lines 77-93: when the file does not exist, write the initial record; an
error is caught and logged. -/
def ensureConfigFile (d : Disk) : Disk :=
  match d.file with
  | some _ => d
  | none =>
    match d.writeFileSync (FileContent.value (stringify initialState)) with
    | some d1 => d1
    | none => d

/-- The expression `a || d` for `a` a string or `undefined`: the empty string and
`undefined` are the falsy ones. -/
def orString (a : Option String) (d : String) : String :=
  match a with
  | some s => if s = "" then d else s
  | none => d

/-- Lines 100-107: the assignments from a parsed `cfg`. -/
def assignLoaded (g : OverlayState) (cfg : Patch) : OverlayState :=
  { maxWin := cfg.maxWin.numberOr g.maxWin
    current := cfg.current.numberOr g.current
    theme := cfg.theme.stringOr g.theme
    font := cfg.font.stringOr g.font
    fontUrl := match cfg.fontUrl with
      | JSVal.str s => orString (some s) ""
      | _ => g.fontUrl
    showBg := cfg.showBg.booleanOr g.showBg
    strokeWidth := cfg.strokeWidth.finiteOr g.strokeWidth
    strokeColor := cfg.strokeColor.stringOr g.strokeColor }

/-- Lines 95-113. -/
def loadConfig (sys : Sys) : OverlayState × Sys :=
  let d := ensureConfigFile sys.disk
  match d.readFileSync with
  | some (FileContent.value cfg) =>
    let g := assignLoaded sys.vars cfg
    (g, { sys with vars := g, disk := d })
  | _ => (sys.vars, { sys with disk := d })

/-- Lines 117-126 and 160-167: the object literal built from `next` and the variables. -/
def mergeFields (g : OverlayState) (next : Patch) : OverlayState :=
  { maxWin := next.maxWin.finiteOr g.maxWin
    current := next.current.finiteOr g.current
    theme := next.theme.stringOr g.theme
    font := next.font.stringOr g.font
    fontUrl := next.fontUrl.stringOr g.fontUrl
    showBg := next.showBg.booleanOr g.showBg
    strokeWidth := next.strokeWidth.finiteOr g.strokeWidth
    strokeColor := next.strokeColor.stringOr g.strokeColor }

/-- Line 127: `if (toSave.maxWin < 1) toSave.maxWin = 1`. -/
def clampMaxWin (x : JSNum) : JSNum :=
  if x.lt (JSNum.fin 1) then JSNum.fin 1 else x

/-- Lines 128-129: `if (w < 0) w = 0; if (w > 12) w = 12`. -/
def clampStrokeWidth (x : JSNum) : JSNum :=
  let y := if x.lt (JSNum.fin 0) then JSNum.fin 0 else x
  if y.gt (JSNum.fin 12) then JSNum.fin 12 else y

/-- Lines 127-129 on the object `toSave`. -/
def clampFields (t : OverlayState) : OverlayState :=
  { t with maxWin := clampMaxWin t.maxWin, strokeWidth := clampStrokeWidth t.strokeWidth }

/-- An object whose eight properties hold the given typed values. -/
def OverlayState.toPatch (s : OverlayState) : Patch :=
  { maxWin := JSVal.num s.maxWin
    current := JSVal.num s.current
    theme := JSVal.str s.theme
    font := JSVal.str s.font
    fontUrl := JSVal.str s.fontUrl
    showBg := JSVal.bool s.showBg
    strokeWidth := JSVal.num s.strokeWidth
    strokeColor := JSVal.str s.strokeColor }

/-- Lines 115-149.  The variables are assigned before the file is written, so a
write that throws leaves them assigned and the file as it was. -/
def saveConfig (sys : Sys) (next : Patch) : OverlayState × Sys :=
  let toSave := clampFields (mergeFields sys.vars next)
  match sys.disk.writeFileSync (FileContent.value (stringify toSave)) with
  | some d => (toSave, { sys with vars := toSave, disk := d })
  | none => (toSave, { sys with vars := toSave })

/-- The method `ws.send(msg)`. -/
def Session.send (ws : Session) (msg : WsMessage) : Session :=
  { ws with sent := ws.sent ++ [msg] }

/-- Lines 151-156. -/
def broadcastState (sys : Sys) : Sys :=
  let msg : WsMessage := { type := "state", data := stringify sys.vars }
  { sys with wsClients := sys.wsClients.map fun ws =>
      if ws.readyState = 1 then ws.send msg else ws }

/-- Lines 158-172. -/
def applyAndPersist (sys : Sys) (next : Patch) : OverlayState × Sys :=
  let merged := (mergeFields sys.vars next).toPatch
  let r := saveConfig sys merged
  (r.1, broadcastState r.2)

/-! ## Text primitives of the language -/

/-- The method `split` of a string with a one-character separator, on the list of
characters: the empty text splits into one empty part. -/
def splitChars (sep : Char) : List Char → List (List Char)
  | [] => [[]]
  | c :: cs =>
    if c = sep then [] :: splitChars sep cs
    else
      match splitChars sep cs with
      | [] => [[c]]
      | p :: ps => (c :: p) :: ps

/-- The method `join` of an array of strings with a one-character separator. -/
def joinChars (sep : Char) : List (List Char) → List Char
  | [] => []
  | [p] => p
  | p :: q :: ps => p ++ sep :: joinChars sep (q :: ps)

/-- The call `s.split(sep)`. -/
def split (s : String) (sep : Char) : List String :=
  (splitChars sep s.data).map String.mk

/-- The call `parts.join(sep)`. -/
def join (parts : List String) (sep : Char) : String :=
  String.mk (joinChars sep (parts.map String.data))

/-- The characters that `parseInt` and `parseFloat` skip at the start of their
input: the white space and line terminator code points of the language. -/
def isStrWhiteSpaceChar (c : Char) : Bool :=
  let n := c.toNat
  n = 0x9 || n = 0xA || n = 0xB || n = 0xC || n = 0xD || n = 0x20 || n = 0xA0 ||
  n = 0x1680 || (0x2000 ≤ n && n ≤ 0x200A) || n = 0x2028 || n = 0x2029 ||
  n = 0x202F || n = 0x205F || n = 0x3000 || n = 0xFEFF

/-- The value of a run of decimal digits, read left to right. -/
def digitsValue (ds : List Char) : Nat :=
  ds.foldl (fun acc c => 10 * acc + (c.toNat - 48)) 0

/-- The integer that `Number.parseInt(rawArg, 10)` reads, with `rawArg` a string
or `undefined` (which is read as the text `undefined`): skip leading white
space, read an optional sign and the longest run of decimal digits; `none` when
there is no digit. -/
def leadingInteger (rawArg : Option String) : Option Int :=
  let inputString : List Char :=
    match rawArg with
    | some s => s.data
    | none => "undefined".data
  let s := inputString.dropWhile isStrWhiteSpaceChar
  let signed : Int × List Char :=
    match s with
    | '-' :: r => (-1, r)
    | '+' :: r => (1, r)
    | _ => (1, s)
  let z := signed.2.takeWhile Char.isDigit
  if z.isEmpty then none else some (signed.1 * (digitsValue z : Int))

/-- The call `Number.parseInt(rawArg, 10)`: `NaN` when no integer is read,
otherwise the Number value of the integer read, which is `Infinity` or
`-Infinity` for an integer beyond the doubles.  The integer is rounded as it
stands; the language also lets an implementation read the digits after the
twentieth as zeros. -/
def parseInt (rawArg : Option String) : JSNum :=
  match leadingInteger rawArg with
  | none => JSNum.nan
  | some z => roundToDouble (z : ℚ)

/-- The exponent part `e`, `e+` or `e-` followed by digits, at the start of `r`;
0 when `r` does not start with a complete one. -/
def exponentPart (r : List Char) : Int :=
  let body (t : List Char) : Int :=
    let signed : Int × List Char :=
      match t with
      | '-' :: u => (-1, u)
      | '+' :: u => (1, u)
      | _ => (1, t)
    signed.1 * (digitsValue (signed.2.takeWhile Char.isDigit) : Int)
  match r with
  | 'e' :: t => body t
  | 'E' :: t => body t
  | _ => 0

/-- The number `m * 10 ^ e`. -/
def scale10 (m : ℚ) (e : Int) : ℚ :=
  if 0 ≤ e then m * (10 : ℚ) ^ e.toNat else m / (10 : ℚ) ^ (-e).toNat

/-- The call `Number.parseFloat(input)` on a string: skip leading white space,
read the longest prefix that is a decimal literal (sign, `Infinity`, or digits
with an optional fraction and exponent); `NaN` when there is none, otherwise
the Number value of the literal, which is `Infinity` or `-Infinity` on overflow
and 0 on underflow. -/
def parseFloat (input : String) : JSNum :=
  let s := input.data.dropWhile isStrWhiteSpaceChar
  let signed : Bool × List Char :=
    match s with
    | '-' :: r => (true, r)
    | '+' :: r => (false, r)
    | _ => (false, s)
  let body := signed.2
  if "Infinity".data.isPrefixOf body then
    (if signed.1 then JSNum.negInf else JSNum.posInf)
  else
    let ip := body.takeWhile Char.isDigit
    let afterInt := body.dropWhile Char.isDigit
    let frac : List Char × List Char :=
      match afterInt with
      | '.' :: t => (t.takeWhile Char.isDigit, t.dropWhile Char.isDigit)
      | _ => ([], afterInt)
    if ip.isEmpty && frac.1.isEmpty then JSNum.nan
    else
      let m : ℚ := (digitsValue ip : ℚ) + (digitsValue frac.1 : ℚ) / (10 : ℚ) ^ frac.1.length
      let v := scale10 m (exponentPart frac.2)
      roundToDouble (if signed.1 then -v else v)

/-- The call `s.toLowerCase()`.  Only the letters A-Z are mapped: the result is
only ever compared with the words `1`, `true` and `on`, and no other character
has one of their letters as its lower case. -/
def toLowerCase (s : String) : String := String.mk (s.data.map Char.toLower)

/-! ## The command dispatcher and the webhook grammar -/

deriving instance DecidableEq for Except

/-- The test `!rawArg` for `rawArg` a string or `undefined`. -/
def isFalsy (rawArg : Option String) : Bool :=
  match rawArg with
  | some s => s = ""
  | none => true

/-- Lines 262-319.  A `throw` is the result `Except.error` with the message of
the error; the system is returned next to it in every case. -/
def handleWebhookAction (sys : Sys) (action : String) (rawArg : Option String) :
    Except String OverlayState × Sys :=
  let n := parseInt rawArg
  let done (r : OverlayState × Sys) : Except String OverlayState × Sys := (Except.ok r.1, r.2)
  if action = "win_plus" then
    let step := if n.isFinite then n else JSNum.fin 1
    done (applyAndPersist sys { current := JSVal.num (sys.vars.current.add step) })
  else if action = "win_minus" then
    let step := if n.isFinite then n else JSNum.fin 1
    done (applyAndPersist sys { current := JSVal.num (sys.vars.current.sub step) })
  else if action = "set_current" then
    if !n.isFinite then (Except.error "set_current needs a number", sys)
    else done (applyAndPersist sys { current := JSVal.num n })
  else if action = "set_max" then
    let m := if n.isFinite && n.ge (JSNum.fin 1) then n else JSNum.fin 1
    done (applyAndPersist sys { maxWin := JSVal.num m })
  else if action = "theme" then
    match rawArg with
    | some s =>
      if s = "" then (Except.error "theme needs a value", sys)
      else done (applyAndPersist sys { theme := JSVal.str s })
    | none => (Except.error "theme needs a value", sys)
  else if action = "font" then
    match rawArg with
    | some s =>
      if s = "" then (Except.error "font needs a value", sys)
      else done (applyAndPersist sys { font := JSVal.str s })
    | none => (Except.error "font needs a value", sys)
  else if action = "fonturl" then
    done (applyAndPersist sys { fontUrl := JSVal.str (orString rawArg "") })
  else if action = "bg" then
    let v := toLowerCase (orString rawArg "")
    done (applyAndPersist sys { showBg := JSVal.bool (v = "1" || v = "true" || v = "on") })
  else if action = "stroke" then
    match rawArg with
    | some s =>
      if s = "" then (Except.error "stroke needs \"<size>,<color>\"", sys)
      else
        let parts := split s ','
        let sw := parts.headD ""
        let sc := parts.tail.head?
        let size := parseFloat sw
        done (applyAndPersist sys
          { strokeWidth := JSVal.num (if size.isFinite then size else sys.vars.strokeWidth)
            strokeColor := JSVal.str (orString sc sys.vars.strokeColor) })
    | none => (Except.error "stroke needs \"<size>,<color>\"", sys)
  else
    (Except.error ("unknown action: " ++ action), sys)

/-- The constant `APP_NAME`. -/
def APP_NAME : String := "winoverlay"

/-- The fallback of `WEBHOOK_TOKEN` when the variable `WIN_TOKEN` is not set. -/
def defaultToken : String := "artjiraphatjtt"

/-- The result `{ action, arg }` of `parsePayload`: `arg` is `undefined` when no
part follows the action. -/
structure Command where
  action : String
  arg : Option String
  deriving DecidableEq

/-- Lines 323-329, on the text that `decodeURIComponent` returned; the first
argument is the value of `WEBHOOK_TOKEN`. -/
def parsePayloadText (WEBHOOK_TOKEN : String) (text : String) : Except String Command :=
  match split text ':' with
  | token :: appName :: action :: rest =>
    let arg := if rest.length ≠ 0 then some (join rest ':') else none
    if token ≠ WEBHOOK_TOKEN then Except.error "invalid token"
    else if appName ≠ APP_NAME then Except.error "invalid app name"
    else Except.ok { action := action, arg := arg }
  | _ => Except.error "payload format: token:app:action[:arg]"

/-- Lines 321-330; `decodeURIComponent` is the first argument, `none` when it throws
(the message of its error is then `URI malformed`). -/
def parsePayload (decodeURIComponent : String → Option String) (WEBHOOK_TOKEN : String)
    (payload : String) : Except String Command :=
  match decodeURIComponent payload with
  | some text => parsePayloadText WEBHOOK_TOKEN text
  | none => Except.error "URI malformed"

/-- The response of the webhook routes: `{ ok: true, action, state }`, or status
400 with `{ ok: false, error }`. -/
inductive HookResponse where
  | ok (action : String) (state : OverlayState)
  | badRequest (error : String)
  deriving DecidableEq

/-- Lines 332-340 (and the three routes after it, which have the same body), on
the decoded text of the payload. -/
def hookRoute (WEBHOOK_TOKEN : String) (sys : Sys) (text : String) : HookResponse × Sys :=
  match parsePayloadText WEBHOOK_TOKEN text with
  | Except.error e => (HookResponse.badRequest e, sys)
  | Except.ok cmd =>
    match handleWebhookAction sys cmd.action cmd.arg with
    | (Except.ok saved, sys1) => (HookResponse.ok cmd.action saved, sys1)
    | (Except.error e, sys1) => (HookResponse.badRequest e, sys1)

/-! ## The live sessions and the snapshot route -/

/-- Lines 376-381, the listener of `connection`: push the socket on `wsClients`
and send it the snapshot of the variables. -/
def onConnection (sys : Sys) (ws : Session) : Sys :=
  { sys with
    wsClients := sys.wsClients ++ [ws.send { type := "state", data := stringify sys.vars }] }

/-- Line 382, the listener of `close` of the socket `ws`:
`wsClients = wsClients.filter(c => c !== ws)`.  Sockets are compared by identity,
which is their `id`. -/
def onClose (sys : Sys) (ws : Session) : Sys :=
  { sys with wsClients := sys.wsClients.filter fun c => c.id != ws.id }

/-- Line 239, the route `GET /api/config`: the body of the response is the result
of `loadConfig()`. -/
def getApiConfig (sys : Sys) : OverlayState × Sys :=
  loadConfig sys

/-! ## Vocabulary of the statements -/

/-- The data-model constraints on a snapshot: `maxWin >= 1` and
`0 <= strokeWidth <= 12`. -/
def OverlayState.InRange (s : OverlayState) : Prop :=
  s.maxWin.ge (JSNum.fin 1) = true ∧ s.strokeWidth.ge (JSNum.fin 0) = true ∧
    (JSNum.fin 12).ge s.strokeWidth = true

/-- A system that has just started with nothing connected: the variables at
their initial values, the given file. -/
def startWith (file : Option FileContent) : Sys :=
  { vars := initialState, disk := { file := file }, wsClients := [] }

/-- The system after `loadConfig` read a hand-edited `config.json` that sets
`maxWin` to 0 and `strokeWidth` to 50. -/
def afterEditedFile : Sys :=
  (loadConfig (startWith (some (FileContent.value
    { maxWin := JSVal.num (JSNum.fin 0), strokeWidth := JSVal.num (JSNum.fin 50) })))).2

/-- The nine identifiers of the `switch` of `handleWebhookAction`. -/
def knownActions : List String :=
  ["win_plus", "win_minus", "set_current", "set_max", "theme", "font", "fonturl", "bg", "stroke"]

/-- Whether a result is a thrown error. -/
def threw {α : Type} (r : Except String α) : Bool :=
  match r with
  | Except.error _ => true
  | Except.ok _ => false

/-- The text before the first `sep`, all of the text when it has none. -/
def textBefore (sep : Char) (s : String) : String :=
  String.mk (s.data.takeWhile fun c => c != sep)

/-- The text after the first `sep`, `none` when the text has none. -/
def textAfter (sep : Char) (s : String) : Option String :=
  match s.data.dropWhile fun c => c != sep with
  | [] => none
  | _ :: r => some (String.mk r)

/-- One write operation on the system: `applyAndPersist` with any object, the
dispatcher with any action and argument, or `loadConfig` after the storage took
any content. -/
inductive Step : Sys → Sys → Prop where
  | apply (sys : Sys) (next : Patch) : Step sys (applyAndPersist sys next).2
  | dispatch (sys : Sys) (action : String) (rawArg : Option String) :
      Step sys (handleWebhookAction sys action rawArg).2
  | reload (sys : Sys) (d : Disk) : Step sys (loadConfig { sys with disk := d }).2

/-- The systems reached from a fresh start by write operations. -/
inductive Reachable : Sys → Prop where
  | start (file : Option FileContent) : Reachable (startWith file)
  | step {a b : Sys} : Reachable a → Step a b → Reachable b

/-- The record that `ensureConfigFile` writes (lines 81-89), as an object. -/
def defaultRecord : Patch :=
  { maxWin := JSVal.num (JSNum.fin 10)
    current := JSVal.num (JSNum.fin 0)
    theme := JSVal.str "theme-default"
    font := JSVal.str "'Kanit', sans-serif"
    fontUrl := JSVal.str ""
    showBg := JSVal.bool true
    strokeWidth := JSVal.num (JSNum.fin 2)
    strokeColor := JSVal.str "#000000" }

/-- The systems reached from a fresh start, each with the state that
`applyAndPersist` or `loadConfig` returned last (the initial values when neither
was called).  Between two calls the file may be edited from outside, and sockets
connect and close. -/
inductive ReachedWith : Sys → OverlayState → Prop where
  | start (file : Option FileContent) : ReachedWith (startWith file) initialState
  | apply {sys : Sys} {last : OverlayState} (next : Patch) :
      ReachedWith sys last →
      ReachedWith (applyAndPersist sys next).2 (applyAndPersist sys next).1
  | load {sys : Sys} {last : OverlayState} :
      ReachedWith sys last → ReachedWith (loadConfig sys).2 (loadConfig sys).1
  | dispatch {sys : Sys} {last : OverlayState} (action : String) (rawArg : Option String) :
      ReachedWith sys last →
      ReachedWith (handleWebhookAction sys action rawArg).2
        (match (handleWebhookAction sys action rawArg).1 with
          | Except.ok saved => saved
          | Except.error _ => last)
  | edit {sys : Sys} {last : OverlayState} (d : Disk) :
      ReachedWith sys last → ReachedWith { sys with disk := d } last
  | connect {sys : Sys} {last : OverlayState} (ws : Session) :
      ReachedWith sys last → ReachedWith (onConnection sys ws) last
  | close {sys : Sys} {last : OverlayState} (ws : Session) :
      ReachedWith sys last → ReachedWith (onClose sys ws) last

/-- The system in which the file was edited from outside to hold `current` 7
after the start, before any reload. -/
def afterUnseenEdit : Sys :=
  { startWith (some (FileContent.value defaultRecord)) with
    disk := { file := some (FileContent.value { current := JSVal.num (JSNum.fin 7) }) } }

/-- The text of the integer `10 ^ 400 - 1`: 400 nines. -/
def fourHundredNines : String := String.mk (List.replicate 400 '9')

/-- The text of the integer `10 ^ 292`: a one and 292 zeros. -/
def tenPow292 : String := String.mk ('1' :: List.replicate 292 '0')

/-- The system at a fresh start with `current` set to `c`. -/
def startAt (c : ℚ) : Sys :=
  { startWith none with vars := { initialState with current := JSNum.fin c } }

/-- The system after `set_current` with `9007199254740992` at a fresh start. -/
def atTwoPow53 : Sys :=
  (handleWebhookAction (startWith none) "set_current" (some "9007199254740992")).2

/-! ## Theorems -/

/-! ### Rounding to a double -/

theorem log2Fuel_spec : ∀ (fuel n : Nat), n ≤ fuel → 1 ≤ n →
    2 ^ log2Fuel fuel n ≤ n ∧ n < 2 ^ (log2Fuel fuel n + 1) := by
  intro fuel
  induction fuel with
  | zero => intro n h1 h2; omega
  | succ fuel ih =>
    intro n h1 h2
    unfold log2Fuel
    by_cases h : n < 2
    · have : n = 1 := by omega
      subst this
      simp
    · rw [if_neg h]
      have hn : n / 2 ≤ fuel := by omega
      have hn1 : 1 ≤ n / 2 := by omega
      obtain ⟨ha, hb⟩ := ih (n / 2) hn hn1
      constructor
      · rw [pow_succ]; omega
      · rw [pow_succ]; omega

theorem natLog2_spec (n : Nat) (h : 1 ≤ n) :
    2 ^ natLog2 n ≤ n ∧ n < 2 ^ (natLog2 n + 1) :=
  log2Fuel_spec n n le_rfl h

theorem scale2_eq (x : ℚ) (s : Int) : scale2 x s = x * (2 : ℚ) ^ s := by
  unfold scale2
  split_ifs with h
  · congr 1
    rw [← zpow_natCast, Int.toNat_of_nonneg h]
  · have h' : 0 ≤ -s := by omega
    rw [div_eq_mul_inv, ← zpow_natCast, Int.toNat_of_nonneg h', ← zpow_neg, neg_neg]

theorem floorLog2_spec (a : ℚ) (ha : 0 < a) :
    (2 : ℚ) ^ floorLog2 a ≤ a ∧ a < (2 : ℚ) ^ (floorLog2 a + 1) := by
  have hnum : 0 < a.num := Rat.num_pos.mpr ha
  have hp : 1 ≤ a.num.natAbs := by omega
  have hd : 1 ≤ a.den := a.den_pos
  obtain ⟨p1, p2⟩ := natLog2_spec _ hp
  obtain ⟨d1, d2⟩ := natLog2_spec _ hd
  set lp := natLog2 a.num.natAbs
  set ld := natLog2 a.den
  have hden : (0 : ℚ) < a.den := by exact_mod_cast a.den_pos
  have haeq : a = (a.num.natAbs : ℚ) / a.den := by
    have h1 : ((a.num.natAbs : ℤ) : ℚ) = a.num := by
      rw [Int.natAbs_of_nonneg hnum.le]
    have h2 : ((a.num.natAbs : ℕ) : ℚ) = ((a.num.natAbs : ℤ) : ℚ) := (Int.cast_natCast _).symm
    rw [h2, h1]
    exact (Rat.num_div_den a).symm
  have P1 : (2 : ℚ) ^ lp ≤ (a.num.natAbs : ℚ) := by exact_mod_cast p1
  have P2 : (a.num.natAbs : ℚ) < (2 : ℚ) ^ (lp + 1) := by exact_mod_cast p2
  have D1 : (2 : ℚ) ^ ld ≤ (a.den : ℚ) := by exact_mod_cast d1
  have D2 : (a.den : ℚ) < (2 : ℚ) ^ (ld + 1) := by exact_mod_cast d2
  have two_pos : ∀ z : ℤ, (0 : ℚ) < (2 : ℚ) ^ z := fun z => zpow_pos (by norm_num) z
  -- upper bound: a < 2 ^ (e0 + 1)
  have up : a < (2 : ℚ) ^ ((lp : ℤ) - ld + 1) := by
    have e : (2 : ℚ) ^ ((lp : ℤ) - ld + 1) = (2 : ℚ) ^ (lp + 1) / (2 : ℚ) ^ ld := by
      rw [show ((lp : ℤ) - ld + 1) = ((lp + 1 : ℕ) : ℤ) - (ld : ℤ) by push_cast; ring]
      rw [zpow_sub₀ (by norm_num : (2 : ℚ) ≠ 0), zpow_natCast, zpow_natCast]
    rw [e, haeq]
    have hpow : (0 : ℚ) < (2 : ℚ) ^ ld := pow_pos (by norm_num) _
    calc (a.num.natAbs : ℚ) / a.den ≤ (a.num.natAbs : ℚ) / (2 : ℚ) ^ ld :=
          div_le_div_of_nonneg_left (by positivity) hpow D1
      _ < (2 : ℚ) ^ (lp + 1) / (2 : ℚ) ^ ld := div_lt_div_of_pos_right P2 hpow
  -- lower bound: 2 ^ (e0 - 1) ≤ a
  have low : (2 : ℚ) ^ ((lp : ℤ) - ld - 1) ≤ a := by
    have e : (2 : ℚ) ^ ((lp : ℤ) - ld - 1) = (2 : ℚ) ^ lp / (2 : ℚ) ^ (ld + 1) := by
      rw [show ((lp : ℤ) - ld - 1) = ((lp : ℕ) : ℤ) - ((ld + 1 : ℕ) : ℤ) by push_cast; ring]
      rw [zpow_sub₀ (by norm_num : (2 : ℚ) ≠ 0), zpow_natCast, zpow_natCast]
    rw [e, haeq]
    have hpow : (0 : ℚ) < (2 : ℚ) ^ (ld + 1) := pow_pos (by norm_num) _
    calc (2 : ℚ) ^ lp / (2 : ℚ) ^ (ld + 1) ≤ (a.num.natAbs : ℚ) / (2 : ℚ) ^ (ld + 1) :=
          div_le_div_of_nonneg_right P1 hpow.le
      _ ≤ (a.num.natAbs : ℚ) / a.den :=
          div_le_div_of_nonneg_left (by positivity) hden D2.le
  unfold floorLog2
  simp only [scale2_eq, one_mul]
  show (2 : ℚ) ^ (if (2 : ℚ) ^ ((lp : ℤ) - ld) ≤ a then ((lp : ℤ) - ld) else (lp : ℤ) - ld - 1) ≤ a ∧
    a < (2 : ℚ) ^ ((if (2 : ℚ) ^ ((lp : ℤ) - ld) ≤ a then ((lp : ℤ) - ld) else (lp : ℤ) - ld - 1) + 1)
  split_ifs with h
  · exact ⟨h, up⟩
  · refine ⟨low, ?_⟩
    rw [sub_add_cancel]
    exact not_le.mp h

theorem roundHalfEven_intCast (k : ℤ) : roundHalfEven (k : ℚ) = k := by
  simp [roundHalfEven]

theorem roundHalfEven_cases (x : ℚ) :
    (roundHalfEven x = ⌊x⌋ ∧ x - ⌊x⌋ ≤ 1 / 2) ∨
    (roundHalfEven x = ⌊x⌋ + 1 ∧ 1 / 2 ≤ x - ⌊x⌋) := by
  unfold roundHalfEven
  simp only
  split_ifs with h1 h2 h3
  · exact Or.inl ⟨rfl, h1.le⟩
  · exact Or.inr ⟨rfl, h2.le⟩
  · exact Or.inl ⟨rfl, not_lt.mp h2⟩
  · exact Or.inr ⟨rfl, not_lt.mp h1⟩

theorem roundHalfEven_le (x : ℚ) (K : ℤ) (h : x ≤ K) : roundHalfEven x ≤ K := by
  have hf : ⌊x⌋ ≤ K := Int.floor_le_iff.mpr (by linarith [Int.floor_le x])
  rcases roundHalfEven_cases x with ⟨e, _⟩ | ⟨e, hr⟩
  · rw [e]; exact hf
  · rw [e]
    have : (⌊x⌋ : ℚ) < K := by linarith
    have : ⌊x⌋ < K := by exact_mod_cast this
    omega

theorem le_roundHalfEven (x : ℚ) (K : ℤ) (h : (K : ℚ) ≤ x) : K ≤ roundHalfEven x := by
  have hf : K ≤ ⌊x⌋ := Int.le_floor.mpr h
  rcases roundHalfEven_cases x with ⟨e, _⟩ | ⟨e, _⟩ <;> rw [e] <;> omega

theorem le_roundHalfEven_iff (x : ℚ) (K : ℤ) (hK : K % 2 = 0) :
    K ≤ roundHalfEven x ↔ (K : ℚ) - 1 / 2 ≤ x := by
  constructor
  · intro h
    rcases roundHalfEven_cases x with ⟨e, _⟩ | ⟨e, hr⟩
    · rw [e] at h
      have : (K : ℚ) ≤ ⌊x⌋ := by exact_mod_cast h
      linarith [Int.floor_le x]
    · rw [e] at h
      have : (K : ℚ) ≤ ⌊x⌋ + 1 := by exact_mod_cast h
      linarith
  · intro h
    have hf : K - 1 ≤ ⌊x⌋ := by
      apply Int.le_floor.mpr
      push_cast
      linarith
    by_cases hK' : K ≤ ⌊x⌋
    · exact le_roundHalfEven x K (by
        have : (K : ℚ) ≤ ⌊x⌋ := by exact_mod_cast hK'
        linarith [Int.floor_le x])
    · have hfe : ⌊x⌋ = K - 1 := by omega
      have hr : 1 / 2 ≤ x - ⌊x⌋ := by
        rw [hfe]; push_cast; linarith
      unfold roundHalfEven
      simp only
      rw [if_neg (not_lt.mpr hr)]
      split_ifs with h2 h3
      · omega
      · omega
      · omega

theorem roundMagnitude_eq (a : ℚ) :
    roundMagnitude a =
      (roundHalfEven (a * (2 : ℚ) ^ (-(max (floorLog2 a) (-1022) - 52))) : ℚ) *
        (2 : ℚ) ^ (max (floorLog2 a) (-1022) - 52) := by
  simp only [roundMagnitude, scale2_eq]

theorem two_zpow_pos (z : ℤ) : (0 : ℚ) < (2 : ℚ) ^ z := zpow_pos (by norm_num) z

theorem two_zpow_le_iff (m n : ℤ) : (2 : ℚ) ^ m ≤ (2 : ℚ) ^ n ↔ m ≤ n :=
  zpow_le_zpow_iff_right₀ (by norm_num)

theorem two_zpow_lt_iff (m n : ℤ) : (2 : ℚ) ^ m < (2 : ℚ) ^ n ↔ m < n :=
  zpow_lt_zpow_iff_right₀ (by norm_num)

theorem roundMagnitude_intCast (k : ℤ) (h1 : 1 ≤ k) (h2 : k ≤ 2 ^ 53) :
    roundMagnitude (k : ℚ) = k := by
  have ha : (0 : ℚ) < (k : ℚ) := by exact_mod_cast (by omega : 0 < k)
  obtain ⟨lo, hi⟩ := floorLog2_spec (k : ℚ) ha
  rw [roundMagnitude_eq]
  generalize floorLog2 (k : ℚ) = e at lo hi
  have k1 : (1 : ℚ) ≤ k := by exact_mod_cast h1
  have k2 : (k : ℚ) ≤ (2 : ℚ) ^ (53 : ℤ) := by
    have : ((2 ^ 53 : ℤ) : ℚ) = (2 : ℚ) ^ (53 : ℤ) := by norm_num
    rw [← this]; exact_mod_cast h2
  have he0 : 0 ≤ e := by
    have : (2 : ℚ) ^ (0 : ℤ) < (2 : ℚ) ^ (e + 1) := by simpa using lt_of_le_of_lt k1 hi
    have := (two_zpow_lt_iff _ _).mp this
    omega
  have he53 : e ≤ 53 := (two_zpow_le_iff _ _).mp (le_trans lo k2)
  have hmax : max e (-1022) = e := max_eq_left (by omega)
  rw [hmax]
  by_cases hs : e ≤ 52
  · obtain ⟨t, ht⟩ : ∃ t : ℕ, (t : ℤ) = 52 - e := ⟨(52 - e).toNat, Int.toNat_of_nonneg (by omega)⟩
    have e1 : -(e - 52) = (t : ℤ) := by omega
    have e2 : e - 52 = -(t : ℤ) := by omega
    rw [e1, e2, zpow_natCast]
    have : (k : ℚ) * (2 : ℚ) ^ t = ((k * 2 ^ t : ℤ) : ℚ) := by push_cast; ring
    rw [this, roundHalfEven_intCast, zpow_neg, zpow_natCast]
    push_cast
    field_simp
  · have he : e = 53 := by omega
    subst he
    have hk : (k : ℚ) = (2 : ℚ) ^ (53 : ℤ) := le_antisymm k2 lo
    rw [hk]
    have : (2 : ℚ) ^ (53 : ℤ) * (2 : ℚ) ^ (-((53 : ℤ) - 52)) = ((2 ^ 52 : ℤ) : ℚ) := by norm_num
    rw [this, roundHalfEven_intCast]
    norm_num

theorem roundMagnitude_overflow_iff (a : ℚ) (ha : 0 < a) :
    (2 : ℚ) ^ 1024 ≤ roundMagnitude a ↔ (2 : ℚ) ^ 1024 - (2 : ℚ) ^ 970 ≤ a := by
  obtain ⟨lo, hi⟩ := floorLog2_spec a ha
  rw [roundMagnitude_eq]
  generalize floorLog2 a = e at lo hi
  have c1024 : (2 : ℚ) ^ 1024 = (2 : ℚ) ^ (1024 : ℤ) := (zpow_natCast (2 : ℚ) 1024).symm
  have c970 : (2 : ℚ) ^ 970 = (2 : ℚ) ^ (970 : ℤ) := (zpow_natCast (2 : ℚ) 970).symm
  rcases lt_trichotomy e 1023 with hlt | heq | hgt
  · -- below the top binade: the result is finite and `a` is below the threshold
    set E := max e (-1022) with hE
    have hE1 : E ≤ 1022 := max_le (by omega) (by norm_num)
    have hE2 : e ≤ E := le_max_left _ _
    have hx : a * (2 : ℚ) ^ (-(E - 52)) ≤ ((2 ^ 53 : ℤ) : ℚ) := by
      have h1 : a ≤ (2 : ℚ) ^ (E + 1) :=
        le_trans hi.le ((two_zpow_le_iff _ _).mpr (by omega))
      have h2 : a * (2 : ℚ) ^ (-(E - 52)) ≤ (2 : ℚ) ^ (E + 1) * (2 : ℚ) ^ (-(E - 52)) :=
        mul_le_mul_of_nonneg_right h1 (two_zpow_pos _).le
      rw [← zpow_add₀ (by norm_num : (2 : ℚ) ≠ 0)] at h2
      have : E + 1 + -(E - 52) = 53 := by ring
      rw [this] at h2
      have : ((2 ^ 53 : ℤ) : ℚ) = (2 : ℚ) ^ (53 : ℤ) := by norm_num
      rw [this]; exact h2
    have hm := roundHalfEven_le _ _ hx
    have hm' : (roundHalfEven (a * (2 : ℚ) ^ (-(E - 52))) : ℚ) ≤ (2 : ℚ) ^ (53 : ℤ) := by
      have : ((2 ^ 53 : ℤ) : ℚ) = (2 : ℚ) ^ (53 : ℤ) := by norm_num
      rw [← this]; exact_mod_cast hm
    have hv : (roundHalfEven (a * (2 : ℚ) ^ (-(E - 52))) : ℚ) * (2 : ℚ) ^ (E - 52) ≤
        (2 : ℚ) ^ (1023 : ℤ) := by
      calc _ ≤ (2 : ℚ) ^ (53 : ℤ) * (2 : ℚ) ^ (E - 52) :=
            mul_le_mul_of_nonneg_right hm' (two_zpow_pos _).le
        _ = (2 : ℚ) ^ (E + 1) := by
            rw [← zpow_add₀ (by norm_num : (2 : ℚ) ≠ 0)]; congr 1; ring
        _ ≤ (2 : ℚ) ^ (1023 : ℤ) := (two_zpow_le_iff _ _).mpr (by omega)
    have ha' : a < (2 : ℚ) ^ (1023 : ℤ) :=
      lt_of_lt_of_le hi ((two_zpow_le_iff _ _).mpr (by omega))
    have n1 : (2 : ℚ) ^ (1023 : ℤ) < (2 : ℚ) ^ 1024 := by
      rw [c1024]; exact (two_zpow_lt_iff _ _).mpr (by norm_num)
    have n2 : (2 : ℚ) ^ (1023 : ℤ) ≤ (2 : ℚ) ^ 1024 - (2 : ℚ) ^ 970 := by
      have e1 : (2 : ℚ) ^ 1024 = 2 * (2 : ℚ) ^ (1023 : ℤ) := by
        rw [c1024, show (1024 : ℤ) = 1 + 1023 by norm_num,
          zpow_add₀ (by norm_num : (2 : ℚ) ≠ 0), zpow_one]
      have e2 : (2 : ℚ) ^ 970 ≤ (2 : ℚ) ^ (1023 : ℤ) := by
        rw [c970]; exact (two_zpow_le_iff _ _).mpr (by norm_num)
      linarith
    constructor
    · intro h; linarith
    · intro h; linarith
  · -- the top binade
    subst heq
    have hmax : max (1023 : ℤ) (-1022) = 1023 := by norm_num
    rw [hmax]
    have hs : (1023 : ℤ) - 52 = 971 := by norm_num
    rw [hs]
    have p971 : (0 : ℚ) < (2 : ℚ) ^ (971 : ℤ) := two_zpow_pos _
    have e1 : (2 : ℚ) ^ 1024 = ((2 ^ 53 : ℤ) : ℚ) * (2 : ℚ) ^ (971 : ℤ) := by
      rw [c1024]
      have : ((2 ^ 53 : ℤ) : ℚ) = (2 : ℚ) ^ (53 : ℤ) := by norm_num
      rw [this, ← zpow_add₀ (by norm_num : (2 : ℚ) ≠ 0)]
      norm_num
    have e2 : (2 : ℚ) ^ 970 = (1 / 2) * (2 : ℚ) ^ (971 : ℤ) := by
      rw [c970, show (971 : ℤ) = 1 + 970 by norm_num,
        zpow_add₀ (by norm_num : (2 : ℚ) ≠ 0), zpow_one]
      ring
    rw [e1, e2]
    rw [mul_le_mul_right p971]
    have hK : (2 ^ 53 : ℤ) % 2 = 0 := by norm_num
    rw [Int.cast_le, le_roundHalfEven_iff _ _ hK]
    rw [zpow_neg, ← div_eq_mul_inv, le_div_iff₀ p971]
    constructor
    · intro h; linarith
    · intro h; linarith
  · -- above every double
    have hmax : max e (-1022) = e := max_eq_left (by omega)
    rw [hmax]
    have hx : ((2 ^ 52 : ℤ) : ℚ) ≤ a * (2 : ℚ) ^ (-(e - 52)) := by
      have h2 : (2 : ℚ) ^ e * (2 : ℚ) ^ (-(e - 52)) ≤ a * (2 : ℚ) ^ (-(e - 52)) :=
        mul_le_mul_of_nonneg_right lo (two_zpow_pos _).le
      rw [← zpow_add₀ (by norm_num : (2 : ℚ) ≠ 0)] at h2
      have : e + -(e - 52) = 52 := by ring
      rw [this] at h2
      have : ((2 ^ 52 : ℤ) : ℚ) = (2 : ℚ) ^ (52 : ℤ) := by norm_num
      rw [this]; exact h2
    have hm := le_roundHalfEven _ _ hx
    have hm' : (2 : ℚ) ^ (52 : ℤ) ≤ (roundHalfEven (a * (2 : ℚ) ^ (-(e - 52))) : ℚ) := by
      have : ((2 ^ 52 : ℤ) : ℚ) = (2 : ℚ) ^ (52 : ℤ) := by norm_num
      rw [← this]; exact_mod_cast hm
    have hv : (2 : ℚ) ^ (1024 : ℤ) ≤
        (roundHalfEven (a * (2 : ℚ) ^ (-(e - 52))) : ℚ) * (2 : ℚ) ^ (e - 52) := by
      calc (2 : ℚ) ^ (1024 : ℤ) ≤ (2 : ℚ) ^ e := (two_zpow_le_iff _ _).mpr (by omega)
        _ = (2 : ℚ) ^ (52 : ℤ) * (2 : ℚ) ^ (e - 52) := by
            rw [← zpow_add₀ (by norm_num : (2 : ℚ) ≠ 0)]; congr 1; ring
        _ ≤ _ := mul_le_mul_of_nonneg_right hm' (two_zpow_pos _).le
    have ha' : (2 : ℚ) ^ (1024 : ℤ) ≤ a :=
      le_trans ((two_zpow_le_iff _ _).mpr (by omega)) lo
    have p970 : (0 : ℚ) < (2 : ℚ) ^ 970 := by positivity
    rw [c1024] at *
    constructor
    · intro _; linarith
    · intro _; exact hv

theorem roundToDouble_ne_nan (q : ℚ) : roundToDouble q ≠ JSNum.nan := by
  unfold roundToDouble
  split_ifs <;> simp

theorem roundToDouble_intCast (k : ℤ) (h : |k| ≤ 2 ^ 53) :
    roundToDouble (k : ℚ) = JSNum.fin (k : ℚ) := by
  have lt1024 : ∀ j : ℤ, j ≤ 2 ^ 53 → ¬ (2 : ℚ) ^ 1024 ≤ (j : ℚ) := by
    intro j hj hc
    have h1 : (j : ℚ) ≤ ((2 ^ 53 : ℤ) : ℚ) := by exact_mod_cast hj
    have h2 : ((2 ^ 53 : ℤ) : ℚ) = (2 : ℚ) ^ (53 : ℤ) := by norm_num
    have h3 : (2 : ℚ) ^ 1024 = (2 : ℚ) ^ (1024 : ℤ) := (zpow_natCast (2 : ℚ) 1024).symm
    rw [h3] at hc
    rw [h2] at h1
    have := (two_zpow_le_iff _ _).mp (le_trans hc h1)
    omega
  have hk := abs_le.mp h
  unfold roundToDouble
  by_cases h0 : (k : ℚ) = 0
  · rw [if_pos h0, h0]
  · rw [if_neg h0]
    have hk0 : k ≠ 0 := by intro e; apply h0; rw [e]; simp
    by_cases hpos : (0 : ℚ) < (k : ℚ)
    · have hp : 1 ≤ k := by
        have : 0 < k := by exact_mod_cast hpos
        omega
      rw [if_pos hpos, roundMagnitude_intCast k hp hk.2, if_neg (lt1024 k hk.2)]
    · have hn : 1 ≤ -k := by
        have : ¬ 0 < k := by intro e; apply hpos; exact_mod_cast e
        omega
      have e : -(k : ℚ) = ((-k : ℤ) : ℚ) := by push_cast; rfl
      rw [if_neg hpos, e, roundMagnitude_intCast (-k) hn (by omega),
        if_neg (lt1024 (-k) (by omega))]
      push_cast
      rw [neg_neg]

theorem roundToDouble_isFinite_eq_false_iff (q : ℚ) :
    (roundToDouble q).isFinite = false ↔ (2 : ℚ) ^ 1024 - (2 : ℚ) ^ 970 ≤ |q| := by
  have hthr : (0 : ℚ) < (2 : ℚ) ^ 1024 - (2 : ℚ) ^ 970 := by
    have : (2 : ℚ) ^ 970 < (2 : ℚ) ^ 1024 :=
      pow_lt_pow_right₀ (by norm_num) (by norm_num)
    linarith
  unfold roundToDouble
  by_cases h0 : q = 0
  · subst h0
    simp only [if_true, JSNum.isFinite, abs_zero]
    constructor
    · intro h; exact absurd h (by simp)
    · intro h; linarith
  · rw [if_neg h0]
    by_cases hpos : 0 < q
    · rw [if_pos hpos, abs_of_pos hpos, ← roundMagnitude_overflow_iff q hpos]
      by_cases hm : (2 : ℚ) ^ 1024 ≤ roundMagnitude q <;> simp [hm, JSNum.isFinite]
    · have hneg : 0 < -q := by
        have : q < 0 := lt_of_le_of_ne (not_lt.mp hpos) h0
        linarith
      have habs : |q| = -q := abs_of_neg (by linarith)
      rw [if_neg hpos, habs, ← roundMagnitude_overflow_iff (-q) hneg]
      by_cases hm : (2 : ℚ) ^ 1024 ≤ roundMagnitude (-q) <;> simp [hm, JSNum.isFinite]

theorem roundMagnitude_nonneg (a : ℚ) (ha : 0 < a) : 0 ≤ roundMagnitude a := by
  rw [roundMagnitude_eq]
  apply mul_nonneg _ (two_zpow_pos _).le
  have : (0 : ℤ) ≤ roundHalfEven (a * (2 : ℚ) ^ (-(max (floorLog2 a) (-1022) - 52))) :=
    le_roundHalfEven _ _ (by
      simp only [Int.cast_zero]
      exact mul_nonneg ha.le (two_zpow_pos _).le)
  exact_mod_cast this

/-- Rounding keeps the sign: a number that is not positive does not round to a
positive double. -/
theorem roundToDouble_nonpos (q r : ℚ) (hq : q ≤ 0) (h : roundToDouble q = JSNum.fin r) :
    r ≤ 0 := by
  unfold roundToDouble at h
  by_cases h0 : q = 0
  · rw [if_pos h0] at h
    cases h; exact le_rfl
  · have hpos : ¬ 0 < q := not_lt.mpr hq
    rw [if_neg h0, if_neg hpos] at h
    have hneg : 0 < -q := by
      have : q < 0 := lt_of_le_of_ne hq h0
      linarith
    split_ifs at h
    cases h
    have := roundMagnitude_nonneg (-q) hneg
    linarith

/-! ### Shared lemmas -/

theorem finiteOr_num_finiteOr (v : JSVal) (d : JSNum) :
    (JSVal.num (v.finiteOr d)).finiteOr d = v.finiteOr d := by
  cases v with
  | num n => cases n <;> cases d <;> rfl
  | _ => cases d <;> rfl

theorem mergeFields_toPatch (g : OverlayState) (next : Patch) :
    mergeFields g (mergeFields g next).toPatch = mergeFields g next := by
  simp [mergeFields, OverlayState.toPatch, finiteOr_num_finiteOr, JSVal.stringOr, JSVal.booleanOr]

theorem applyAndPersist_fst (sys : Sys) (next : Patch) :
    (applyAndPersist sys next).1 = clampFields (mergeFields sys.vars next) := by
  simp only [applyAndPersist, saveConfig, mergeFields_toPatch]
  cases sys.disk.writeFileSync _ <;> rfl

theorem applyAndPersist_vars (sys : Sys) (next : Patch) :
    (applyAndPersist sys next).2.vars = clampFields (mergeFields sys.vars next) := by
  simp only [applyAndPersist, saveConfig, mergeFields_toPatch, broadcastState]
  cases sys.disk.writeFileSync _ <;> rfl

theorem applyAndPersist_disk (sys : Sys) (next : Patch) :
    (applyAndPersist sys next).2.disk =
      if sys.disk.writeFails then sys.disk
      else { sys.disk with
        file := some (FileContent.value (stringify (clampFields (mergeFields sys.vars next)))) } := by
  simp only [applyAndPersist, saveConfig, mergeFields_toPatch, broadcastState, Disk.writeFileSync]
  cases sys.disk.writeFails <;> simp

theorem applyAndPersist_wsClients (sys : Sys) (next : Patch) :
    (applyAndPersist sys next).2.wsClients =
      sys.wsClients.map fun ws =>
        if ws.readyState = 1 then
          ws.send { type := "state", data := stringify (clampFields (mergeFields sys.vars next)) }
        else ws := by
  simp only [applyAndPersist, saveConfig, mergeFields_toPatch, broadcastState]
  cases sys.disk.writeFileSync _ <;> rfl

theorem clampMaxWin_fin (q : ℚ) : clampMaxWin (JSNum.fin q) = JSNum.fin (max q 1) := by
  unfold clampMaxWin JSNum.lt
  by_cases h : q < 1
  · simp [h, max_eq_right h.le]
  · simp [h, max_eq_left (not_lt.mp h)]

theorem clampStrokeWidth_fin (q : ℚ) :
    clampStrokeWidth (JSNum.fin q) = JSNum.fin (min (max q 0) 12) := by
  unfold clampStrokeWidth JSNum.gt JSNum.lt
  by_cases h : q < 0
  · have h12 : ¬ (12 : ℚ) < 0 := by norm_num
    simp [h, max_eq_right h.le, h12]
  · have h0 : (0 : ℚ) ≤ q := not_lt.mp h
    by_cases h2 : (12 : ℚ) < q
    · simp [h, h2, max_eq_left h0, min_eq_right h2.le]
    · simp [h, h2, max_eq_left h0, min_eq_left (not_lt.mp h2)]

theorem clampMaxWin_of_ge (x : JSNum) (h : x.ge (JSNum.fin 1) = true) : clampMaxWin x = x := by
  cases x with
  | fin q =>
    have h1 : (1 : ℚ) ≤ q := by simpa [JSNum.ge] using h
    simp [clampMaxWin, JSNum.lt, not_lt.mpr h1]
  | posInf => rfl
  | negInf => simp [JSNum.ge] at h
  | nan => simp [JSNum.ge] at h

theorem clampStrokeWidth_of_range (x : JSNum) (hlo : x.ge (JSNum.fin 0) = true)
    (hhi : (JSNum.fin 12).ge x = true) : clampStrokeWidth x = x := by
  cases x with
  | fin q =>
    have h0 : (0 : ℚ) ≤ q := by simpa [JSNum.ge] using hlo
    have h12 : q ≤ 12 := by simpa [JSNum.ge] using hhi
    simp [clampStrokeWidth, JSNum.lt, JSNum.gt, not_lt.mpr h0, not_lt.mpr h12]
  | posInf => simp [JSNum.ge] at hhi
  | negInf => simp [JSNum.ge] at hlo
  | nan => simp [JSNum.ge] at hlo

theorem initialState_inRange : initialState.InRange :=
  ⟨by decide!, by decide!, by decide!⟩

theorem handleWebhookAction_cases (sys : Sys) (action : String) (rawArg : Option String) :
    (∃ e, handleWebhookAction sys action rawArg = (Except.error e, sys)) ∨
    (∃ p, handleWebhookAction sys action rawArg =
      (Except.ok (applyAndPersist sys p).1, (applyAndPersist sys p).2)) := by
  by_cases h1 : action = "win_plus"
  · subst h1; exact Or.inr ⟨_, by simp only [handleWebhookAction, if_true]; rfl⟩
  by_cases h2 : action = "win_minus"
  · subst h2; exact Or.inr ⟨_, by simp only [handleWebhookAction, if_neg h1, if_true]; rfl⟩
  by_cases h3 : action = "set_current"
  · subst h3
    by_cases hn : (!(parseInt rawArg).isFinite) = true
    · exact Or.inl ⟨_, by simp only [handleWebhookAction, if_neg h1, if_neg h2, if_true, if_pos hn]; rfl⟩
    · exact Or.inr ⟨_, by simp only [handleWebhookAction, if_neg h1, if_neg h2, if_true, if_neg hn]; rfl⟩
  by_cases h4 : action = "set_max"
  · subst h4
    exact Or.inr ⟨_, by simp only [handleWebhookAction, if_neg h1, if_neg h2, if_neg h3, if_true]; rfl⟩
  by_cases h5 : action = "theme"
  · subst h5
    cases rawArg with
    | none =>
      exact Or.inl ⟨_, by
        simp only [handleWebhookAction, if_neg h1, if_neg h2, if_neg h3, if_neg h4, if_true]; rfl⟩
    | some s =>
      by_cases hs : s = ""
      · exact Or.inl ⟨_, by
          simp only [handleWebhookAction, if_neg h1, if_neg h2, if_neg h3, if_neg h4, if_true,
            if_pos hs]; rfl⟩
      · exact Or.inr ⟨_, by
          simp only [handleWebhookAction, if_neg h1, if_neg h2, if_neg h3, if_neg h4, if_true,
            if_neg hs]; rfl⟩
  by_cases h6 : action = "font"
  · subst h6
    cases rawArg with
    | none =>
      exact Or.inl ⟨_, by
        simp only [handleWebhookAction, if_neg h1, if_neg h2, if_neg h3, if_neg h4, if_neg h5,
          if_true]; rfl⟩
    | some s =>
      by_cases hs : s = ""
      · exact Or.inl ⟨_, by
          simp only [handleWebhookAction, if_neg h1, if_neg h2, if_neg h3, if_neg h4, if_neg h5,
            if_true, if_pos hs]; rfl⟩
      · exact Or.inr ⟨_, by
          simp only [handleWebhookAction, if_neg h1, if_neg h2, if_neg h3, if_neg h4, if_neg h5,
            if_true, if_neg hs]; rfl⟩
  by_cases h7 : action = "fonturl"
  · subst h7
    exact Or.inr ⟨_, by
      simp only [handleWebhookAction, if_neg h1, if_neg h2, if_neg h3, if_neg h4, if_neg h5,
        if_neg h6, if_true]; rfl⟩
  by_cases h8 : action = "bg"
  · subst h8
    exact Or.inr ⟨_, by
      simp only [handleWebhookAction, if_neg h1, if_neg h2, if_neg h3, if_neg h4, if_neg h5,
        if_neg h6, if_neg h7, if_true]; rfl⟩
  by_cases h9 : action = "stroke"
  · subst h9
    cases rawArg with
    | none =>
      exact Or.inl ⟨_, by
        simp only [handleWebhookAction, if_neg h1, if_neg h2, if_neg h3, if_neg h4, if_neg h5,
          if_neg h6, if_neg h7, if_neg h8, if_true]; rfl⟩
    | some s =>
      by_cases hs : s = ""
      · exact Or.inl ⟨_, by
          simp only [handleWebhookAction, if_neg h1, if_neg h2, if_neg h3, if_neg h4, if_neg h5,
            if_neg h6, if_neg h7, if_neg h8, if_true, if_pos hs]; rfl⟩
      · exact Or.inr ⟨_, by
          simp only [handleWebhookAction, if_neg h1, if_neg h2, if_neg h3, if_neg h4, if_neg h5,
            if_neg h6, if_neg h7, if_neg h8, if_true, if_neg hs]; rfl⟩
  exact Or.inl ⟨_, by
    simp only [handleWebhookAction, if_neg h1, if_neg h2, if_neg h3, if_neg h4, if_neg h5,
      if_neg h6, if_neg h7, if_neg h8, if_neg h9]; rfl⟩

theorem splitChars_ne_nil (sep : Char) (l : List Char) : splitChars sep l ≠ [] := by
  cases l with
  | nil => simp [splitChars]
  | cons c cs =>
    unfold splitChars
    split_ifs
    · simp
    · split <;> simp

theorem joinChars_splitChars (sep : Char) (l : List Char) :
    joinChars sep (splitChars sep l) = l := by
  induction l with
  | nil => rfl
  | cons c cs ih =>
    unfold splitChars
    split_ifs with h
    · cases hs : splitChars sep cs with
      | nil => exact absurd hs (splitChars_ne_nil sep cs)
      | cons p ps =>
        rw [hs] at ih
        simp [joinChars, ih, h]
    · cases hs : splitChars sep cs with
      | nil => exact absurd hs (splitChars_ne_nil sep cs)
      | cons p ps =>
        rw [hs] at ih
        cases ps with
        | nil => simpa [joinChars] using ih
        | cons q qs =>
          simp only [joinChars] at ih ⊢
          rw [List.cons_append, ih]

theorem splitChars_of_not_mem (sep : Char) (a : List Char) (h : sep ∉ a) :
    splitChars sep a = [a] := by
  induction a with
  | nil => rfl
  | cons c cs ih =>
    have hc : c ≠ sep := fun e => h (by simp [e])
    have hcs : sep ∉ cs := fun e => h (by simp [e])
    simp [splitChars, hc, ih hcs]

theorem splitChars_append (sep : Char) (a b : List Char) (h : sep ∉ a) :
    splitChars sep (a ++ sep :: b) = a :: splitChars sep b := by
  induction a with
  | nil => simp [splitChars]
  | cons c cs ih =>
    have hc : c ≠ sep := fun e => h (by simp [e])
    have hcs : sep ∉ cs := fun e => h (by simp [e])
    simp [splitChars, hc, ih hcs]

theorem split_append (sep : Char) (a b : String) (h : sep ∉ a.data) :
    split (a ++ String.singleton sep ++ b) sep = a :: split b sep := by
  simp [split, String.singleton, splitChars_append sep a.data b.data h]

theorem split_of_not_mem (sep : Char) (a : String) (h : sep ∉ a.data) :
    split a sep = [a] := by
  simp [split, splitChars_of_not_mem sep a.data h]

theorem join_split (sep : Char) (a : String) : join (split a sep) sep = a := by
  simp [join, split, Function.comp_def, joinChars_splitChars]

theorem split_ne_nil (sep : Char) (a : String) : split a sep ≠ [] := by
  simp [split, splitChars_ne_nil]

theorem colon_eq : ":" = String.singleton ':' := rfl

theorem split_payload (tok action : String) (rest : String)
    (htok : ':' ∉ tok.data) (hact : ':' ∉ action.data) :
    split (tok ++ ":" ++ APP_NAME ++ ":" ++ action ++ ":" ++ rest) ':' =
      tok :: APP_NAME :: action :: split rest ':' := by
  have happ : ':' ∉ APP_NAME.data := by decide
  have e : tok ++ ":" ++ APP_NAME ++ ":" ++ action ++ ":" ++ rest =
      tok ++ String.singleton ':' ++
        (APP_NAME ++ String.singleton ':' ++ (action ++ String.singleton ':' ++ rest)) := by
    simp [colon_eq, String.append_assoc]
  rw [e, split_append _ _ _ htok, split_append _ _ _ happ, split_append _ _ _ hact]

theorem split_payload_noarg (tok action : String)
    (htok : ':' ∉ tok.data) (hact : ':' ∉ action.data) :
    split (tok ++ ":" ++ APP_NAME ++ ":" ++ action) ':' = [tok, APP_NAME, action] := by
  have happ : ':' ∉ APP_NAME.data := by decide
  have e : tok ++ ":" ++ APP_NAME ++ ":" ++ action =
      tok ++ String.singleton ':' ++ (APP_NAME ++ String.singleton ':' ++ action) := by
    simp [colon_eq, String.append_assoc]
  rw [e, split_append _ _ _ htok, split_append _ _ _ happ, split_of_not_mem _ _ hact]

theorem orString_self (s : String) : orString (some s) "" = s := by
  simp only [orString]
  split_ifs with h
  · exact h.symm
  · rfl

theorem assignLoaded_stringify (s : OverlayState) : assignLoaded s (stringify s) = s := by
  cases s with
  | mk maxWin current theme font fontUrl showBg strokeWidth strokeColor =>
    cases maxWin <;> cases current <;> cases strokeWidth <;>
      simp [assignLoaded, stringify, jsonNum, JSVal.numberOr, JSVal.stringOr, JSVal.booleanOr,
        JSVal.finiteOr, orString_self]

theorem handleWebhookAction_win_plus (sys : Sys) (rawArg : Option String) :
    handleWebhookAction sys "win_plus" rawArg =
      (Except.ok (applyAndPersist sys { current := JSVal.num (sys.vars.current.add
          (if (parseInt rawArg).isFinite then parseInt rawArg else JSNum.fin 1)) }).1,
        (applyAndPersist sys { current := JSVal.num (sys.vars.current.add
          (if (parseInt rawArg).isFinite then parseInt rawArg else JSNum.fin 1)) }).2) := by
  simp only [handleWebhookAction, if_true]

theorem handleWebhookAction_win_minus (sys : Sys) (rawArg : Option String) :
    handleWebhookAction sys "win_minus" rawArg =
      (Except.ok (applyAndPersist sys { current := JSVal.num (sys.vars.current.sub
          (if (parseInt rawArg).isFinite then parseInt rawArg else JSNum.fin 1)) }).1,
        (applyAndPersist sys { current := JSVal.num (sys.vars.current.sub
          (if (parseInt rawArg).isFinite then parseInt rawArg else JSNum.fin 1)) }).2) := by
  have h : ¬ "win_minus" = "win_plus" := by decide
  simp only [handleWebhookAction, if_neg h, if_true]

theorem handleWebhookAction_set_max (sys : Sys) (rawArg : Option String) :
    handleWebhookAction sys "set_max" rawArg =
      (Except.ok (applyAndPersist sys { maxWin := (JSVal.num
          (if (parseInt rawArg).isFinite && (parseInt rawArg).ge (JSNum.fin 1)
            then parseInt rawArg else JSNum.fin 1)) }).1,
        (applyAndPersist sys { maxWin := (JSVal.num
          (if (parseInt rawArg).isFinite && (parseInt rawArg).ge (JSNum.fin 1)
            then parseInt rawArg else JSNum.fin 1)) }).2) := by
  have h1 : ¬ "set_max" = "win_plus" := by decide
  have h2 : ¬ "set_max" = "win_minus" := by decide
  have h3 : ¬ "set_max" = "set_current" := by decide
  simp only [handleWebhookAction, if_neg h1, if_neg h2, if_neg h3, if_true]

theorem clampMaxWin_idem (x : JSNum) : clampMaxWin (clampMaxWin x) = clampMaxWin x := by
  cases x with
  | fin q => simp [clampMaxWin_fin]
  | posInf => rfl
  | negInf => decide!
  | nan => rfl

theorem clampStrokeWidth_idem (x : JSNum) :
    clampStrokeWidth (clampStrokeWidth x) = clampStrokeWidth x := by
  cases x with
  | fin q => simp [clampStrokeWidth_fin]
  | posInf => decide!
  | negInf => decide!
  | nan => rfl

theorem finiteOr_clampMaxWin (v : JSVal) (d : JSNum) :
    clampMaxWin (v.finiteOr (clampMaxWin (v.finiteOr d))) = clampMaxWin (v.finiteOr d) := by
  cases v with
  | num n => cases n <;> simp [JSVal.finiteOr, clampMaxWin_idem]
  | _ => simp [JSVal.finiteOr, clampMaxWin_idem]

theorem finiteOr_clampStrokeWidth (v : JSVal) (d : JSNum) :
    clampStrokeWidth (v.finiteOr (clampStrokeWidth (v.finiteOr d))) =
      clampStrokeWidth (v.finiteOr d) := by
  cases v with
  | num n => cases n <;> simp [JSVal.finiteOr, clampStrokeWidth_idem]
  | _ => simp [JSVal.finiteOr, clampStrokeWidth_idem]

theorem finiteOr_idem (v : JSVal) (d : JSNum) : v.finiteOr (v.finiteOr d) = v.finiteOr d := by
  cases v with
  | num n => cases n <;> rfl
  | _ => rfl

theorem stringOr_idem (v : JSVal) (d : String) : v.stringOr (v.stringOr d) = v.stringOr d := by
  cases v <;> rfl

theorem booleanOr_idem (v : JSVal) (d : Bool) : v.booleanOr (v.booleanOr d) = v.booleanOr d := by
  cases v <;> rfl

theorem clamp_merge_idem (g : OverlayState) (p : Patch) :
    clampFields (mergeFields (clampFields (mergeFields g p)) p) =
      clampFields (mergeFields g p) := by
  simp [clampFields, mergeFields, finiteOr_clampMaxWin, finiteOr_clampStrokeWidth,
    finiteOr_idem, stringOr_idem, booleanOr_idem]

theorem splitChars_eq (sep : Char) (l : List Char) :
    splitChars sep l = l.takeWhile (fun c => c != sep) ::
      (match l.dropWhile (fun c => c != sep) with
        | [] => []
        | _ :: r => splitChars sep r) := by
  induction l with
  | nil => rfl
  | cons c cs ih =>
    by_cases h : c = sep
    · simp [splitChars, h]
    · rw [splitChars, if_neg h, ih]
      simp [h]

theorem split_headD (sep : Char) (s : String) :
    (split s sep).headD "" = textBefore sep s := by
  rw [split, splitChars_eq]
  rfl

theorem split_second (sep : Char) (s : String) :
    (split s sep).tail.head? = (textAfter sep s).map (textBefore sep) := by
  rw [split, splitChars_eq]
  simp only [List.map_cons, List.tail_cons, textAfter]
  cases h : s.data.dropWhile (fun c => c != sep) with
  | nil => rfl
  | cons c r =>
    simp only [Option.map_some']
    rw [splitChars_eq]
    rfl

theorem textBefore_of_not_mem (sep : Char) (t : String) (h : sep ∉ t.data) :
    textBefore sep t = t := by
  have : t.data.takeWhile (fun c => c != sep) = t.data := by
    rw [List.takeWhile_eq_self_iff]
    intro c hc
    simp only [bne_iff_ne, ne_eq]
    intro e
    exact h (e ▸ hc)
  simp [textBefore, this]

theorem handleWebhookAction_stroke (sys : Sys) (s : String) (hs : s ≠ "") :
    handleWebhookAction sys "stroke" (some s) =
      (Except.ok (applyAndPersist sys
        { strokeWidth := (JSVal.num (if (parseFloat ((split s ',').headD "")).isFinite
            then parseFloat ((split s ',').headD "") else sys.vars.strokeWidth))
          strokeColor := (JSVal.str (orString (split s ',').tail.head? sys.vars.strokeColor)) }).1,
       (applyAndPersist sys
        { strokeWidth := (JSVal.num (if (parseFloat ((split s ',').headD "")).isFinite
            then parseFloat ((split s ',').headD "") else sys.vars.strokeWidth))
          strokeColor := (JSVal.str (orString (split s ',').tail.head? sys.vars.strokeColor)) }).2) := by
  have h1 : ¬ "stroke" = "win_plus" := by decide
  have h2 : ¬ "stroke" = "win_minus" := by decide
  have h3 : ¬ "stroke" = "set_current" := by decide
  have h4 : ¬ "stroke" = "set_max" := by decide
  have h5 : ¬ "stroke" = "theme" := by decide
  have h6 : ¬ "stroke" = "font" := by decide
  have h7 : ¬ "stroke" = "fonturl" := by decide
  have h8 : ¬ "stroke" = "bg" := by decide
  simp only [handleWebhookAction, if_neg h1, if_neg h2, if_neg h3, if_neg h4, if_neg h5,
    if_neg h6, if_neg h7, if_neg h8, if_true, if_neg hs]

/-! ### Shared lemmas on the numbers of the dispatcher -/

theorem parseInt_none_of (rawArg : Option String) (h : leadingInteger rawArg = none) :
    parseInt rawArg = JSNum.nan := by
  simp [parseInt, h]

theorem parseInt_some_of (rawArg : Option String) (z : ℤ) (h : leadingInteger rawArg = some z) :
    parseInt rawArg = roundToDouble (z : ℚ) := by
  simp [parseInt, h]

/-- The result of `parseInt` is exact for an integer of magnitude at most `2 ^ 53`. -/
theorem parseInt_of_safe (rawArg : Option String) (z : ℤ)
    (h : leadingInteger rawArg = some z) (hz : |z| ≤ 2 ^ 53) :
    parseInt rawArg = JSNum.fin (z : ℚ) := by
  rw [parseInt_some_of rawArg z h, roundToDouble_intCast z hz]

/-- The result of `parseInt` is not finite exactly when no integer is read or the
integer read has magnitude at least `2 ^ 1024 - 2 ^ 970`. -/
theorem parseInt_isFinite_eq_false_iff (rawArg : Option String) :
    (parseInt rawArg).isFinite = false ↔
      leadingInteger rawArg = none ∨
      ∃ z : ℤ, leadingInteger rawArg = some z ∧
        (2 : ℚ) ^ 1024 - (2 : ℚ) ^ 970 ≤ |(z : ℚ)| := by
  cases h : leadingInteger rawArg with
  | none => simp [parseInt_none_of rawArg h, JSNum.isFinite]
  | some z =>
    rw [parseInt_some_of rawArg z h, roundToDouble_isFinite_eq_false_iff]
    simp

theorem isFinite_eq_true_iff (n : JSNum) : n.isFinite = true ↔ ∃ q, n = JSNum.fin q := by
  cases n <;> simp [JSNum.isFinite]

theorem isFinite_eq_false_iff (n : JSNum) : n.isFinite = false ↔ ∀ q, n ≠ JSNum.fin q := by
  cases n <;> simp [JSNum.isFinite]

theorem finiteOr_num (x d : JSNum) :
    (JSVal.num x).finiteOr d = if x.isFinite then x else d := by
  cases x <;> rfl

/-- The step of `win_plus` and `win_minus`: the number `parseInt` returns when it
is finite, otherwise 1. -/
theorem step_of_parseInt (rawArg : Option String) (n : ℚ)
    (h : parseInt rawArg = JSNum.fin n ∨ ((parseInt rawArg).isFinite = false ∧ n = 1)) :
    (if (parseInt rawArg).isFinite then parseInt rawArg else JSNum.fin 1) = JSNum.fin n := by
  rcases h with h | ⟨h, rfl⟩
  · simp [h, JSNum.isFinite]
  · simp [h]

/-- The step in terms of the integer read: that integer when its magnitude is at
most `2 ^ 53`, and 1 when none is read or the one read is beyond the doubles. -/
theorem step_of_leadingInteger (rawArg : Option String) (k : ℤ) (hk : |k| ≤ 2 ^ 53)
    (h : leadingInteger rawArg = some k ∨ (leadingInteger rawArg = none ∧ k = 1) ∨
      ((∃ z : ℤ, leadingInteger rawArg = some z ∧
        (2 : ℚ) ^ 1024 - (2 : ℚ) ^ 970 ≤ |(z : ℚ)|) ∧ k = 1)) :
    (if (parseInt rawArg).isFinite then parseInt rawArg else JSNum.fin 1) =
      JSNum.fin (k : ℚ) := by
  apply step_of_parseInt
  rcases h with h | ⟨h, rfl⟩ | ⟨h, rfl⟩
  · exact Or.inl (parseInt_of_safe rawArg k h hk)
  · exact Or.inr ⟨(parseInt_isFinite_eq_false_iff rawArg).mpr (Or.inl h), by simp⟩
  · exact Or.inr ⟨(parseInt_isFinite_eq_false_iff rawArg).mpr (Or.inr h), by simp⟩

theorem add_intCast (a b : ℤ) (h : |a + b| ≤ 2 ^ 53) :
    (JSNum.fin (a : ℚ)).add (JSNum.fin (b : ℚ)) = JSNum.fin ((a + b : ℤ) : ℚ) := by
  have : (a : ℚ) + (b : ℚ) = ((a + b : ℤ) : ℚ) := by push_cast; rfl
  simp only [JSNum.add]
  rw [this, roundToDouble_intCast _ h]

theorem sub_intCast (a b : ℤ) (h : |a - b| ≤ 2 ^ 53) :
    (JSNum.fin (a : ℚ)).sub (JSNum.fin (b : ℚ)) = JSNum.fin ((a - b : ℤ) : ℚ) := by
  have : (a : ℚ) + -(b : ℚ) = ((a - b : ℤ) : ℚ) := by push_cast; ring
  simp only [JSNum.sub, JSNum.neg, JSNum.add]
  rw [this, roundToDouble_intCast _ h]

theorem win_plus_current (sys : Sys) (rawArg : Option String) (n : ℚ)
    (h : (if (parseInt rawArg).isFinite then parseInt rawArg else JSNum.fin 1) = JSNum.fin n) :
    (handleWebhookAction sys "win_plus" rawArg).2.vars.current =
      if (sys.vars.current.add (JSNum.fin n)).isFinite then sys.vars.current.add (JSNum.fin n)
      else sys.vars.current := by
  rw [handleWebhookAction_win_plus, applyAndPersist_vars, h]
  simp [clampFields, mergeFields, finiteOr_num]

theorem win_minus_current (sys : Sys) (rawArg : Option String) (n : ℚ)
    (h : (if (parseInt rawArg).isFinite then parseInt rawArg else JSNum.fin 1) = JSNum.fin n) :
    (handleWebhookAction sys "win_minus" rawArg).2.vars.current =
      if (sys.vars.current.sub (JSNum.fin n)).isFinite then sys.vars.current.sub (JSNum.fin n)
      else sys.vars.current := by
  rw [handleWebhookAction_win_minus, applyAndPersist_vars, h]
  simp [clampFields, mergeFields, finiteOr_num]

theorem set_max_value (sys : Sys) (rawArg : Option String) (m : ℚ) (hm : 1 ≤ m)
    (h : (if (parseInt rawArg).isFinite && (parseInt rawArg).ge (JSNum.fin 1)
      then parseInt rawArg else JSNum.fin 1) = JSNum.fin m) :
    (handleWebhookAction sys "set_max" rawArg).2.vars.maxWin = JSNum.fin m := by
  rw [handleWebhookAction_set_max, applyAndPersist_vars, h]
  simp [clampFields, mergeFields, JSVal.finiteOr, clampMaxWin_fin, hm]

theorem set_max_one (sys : Sys) (rawArg : Option String)
    (h : ((parseInt rawArg).isFinite && (parseInt rawArg).ge (JSNum.fin 1)) = false) :
    (handleWebhookAction sys "set_max" rawArg).2.vars.maxWin = JSNum.fin 1 := by
  apply set_max_value sys rawArg 1 le_rfl
  simp [h]

theorem threw_iff_isFinite (sys : Sys) (action : String) (rawArg : Option String) :
    threw (handleWebhookAction sys action rawArg).1 = true ↔
      (action = "set_current" ∧ (parseInt rawArg).isFinite = false) ∨
      ((action = "theme" ∨ action = "font" ∨ action = "stroke") ∧
        (rawArg = none ∨ rawArg = some "")) ∨
      action ∉ knownActions := by
  by_cases h1 : action = "win_plus"
  · subst h1; simp [handleWebhookAction, knownActions, threw]
  by_cases h2 : action = "win_minus"
  · subst h2; simp [handleWebhookAction, knownActions, threw]
  by_cases h3 : action = "set_current"
  · subst h3
    cases hf : (parseInt rawArg).isFinite <;>
      simp [handleWebhookAction, knownActions, threw, hf]
  by_cases h4 : action = "set_max"
  · subst h4; simp [handleWebhookAction, knownActions, threw]
  by_cases h5 : action = "theme"
  · subst h5
    cases rawArg with
    | none => simp [handleWebhookAction, knownActions, threw]
    | some s => by_cases hs : s = "" <;> simp [handleWebhookAction, knownActions, threw, hs]
  by_cases h6 : action = "font"
  · subst h6
    cases rawArg with
    | none => simp [handleWebhookAction, knownActions, threw]
    | some s => by_cases hs : s = "" <;> simp [handleWebhookAction, knownActions, threw, hs]
  by_cases h7 : action = "fonturl"
  · subst h7; simp [handleWebhookAction, knownActions, threw]
  by_cases h8 : action = "bg"
  · subst h8; simp [handleWebhookAction, knownActions, threw]
  by_cases h9 : action = "stroke"
  · subst h9
    cases rawArg with
    | none => simp [handleWebhookAction, knownActions, threw]
    | some s => by_cases hs : s = "" <;> simp [handleWebhookAction, knownActions, threw, hs]
  simp [handleWebhookAction, knownActions, threw, h1, h2, h3, h4, h5, h6, h7, h8, h9]

/-! ### C1: what `applyAndPersist` does to each field -/

/-- C1, counterexample: after `loadConfig` read a file that sets `maxWin` to 0 and
`strokeWidth` to 50, the variables hold 0 and 50; `applyAndPersist({})`, in which
every field is absent, then returns `maxWin` 1 and `strokeWidth` 12, not the
values the fields had. -/
theorem applyAndPersist_absent_field_clamped :
    afterEditedFile.vars.maxWin = JSNum.fin 0 ∧
    afterEditedFile.vars.strokeWidth = JSNum.fin 50 ∧
    (applyAndPersist afterEditedFile {}).1.maxWin = JSNum.fin 1 ∧
    (applyAndPersist afterEditedFile {}).1.strokeWidth = JSNum.fin 12 := by
  decide!

/-- C1, amended: when the current state has `maxWin >= 1` and
`0 <= strokeWidth <= 12`, `applyAndPersist(p)` returns the state it leaves in the
variables, and in it every field that is absent from `p` or wrong-typed in `p`
has the value it had, and every field that is present and well-typed in `p` has
the value of `p`, `maxWin` raised to 1 when below 1 and `strokeWidth` clamped
into [0, 12]. -/
theorem applyAndPersist_merge_clamp (sys : Sys) (p : Patch) (hs : sys.vars.InRange) :
    (applyAndPersist sys p).2.vars = (applyAndPersist sys p).1 ∧
    ((∀ q, p.maxWin = JSVal.num (JSNum.fin q) →
        (applyAndPersist sys p).1.maxWin = JSNum.fin (max q 1)) ∧
      ((∀ q, p.maxWin ≠ JSVal.num (JSNum.fin q)) →
        (applyAndPersist sys p).1.maxWin = sys.vars.maxWin)) ∧
    ((∀ q, p.current = JSVal.num (JSNum.fin q) →
        (applyAndPersist sys p).1.current = JSNum.fin q) ∧
      ((∀ q, p.current ≠ JSVal.num (JSNum.fin q)) →
        (applyAndPersist sys p).1.current = sys.vars.current)) ∧
    ((∀ t, p.theme = JSVal.str t → (applyAndPersist sys p).1.theme = t) ∧
      ((∀ t, p.theme ≠ JSVal.str t) → (applyAndPersist sys p).1.theme = sys.vars.theme)) ∧
    ((∀ t, p.font = JSVal.str t → (applyAndPersist sys p).1.font = t) ∧
      ((∀ t, p.font ≠ JSVal.str t) → (applyAndPersist sys p).1.font = sys.vars.font)) ∧
    ((∀ t, p.fontUrl = JSVal.str t → (applyAndPersist sys p).1.fontUrl = t) ∧
      ((∀ t, p.fontUrl ≠ JSVal.str t) →
        (applyAndPersist sys p).1.fontUrl = sys.vars.fontUrl)) ∧
    ((∀ b, p.showBg = JSVal.bool b → (applyAndPersist sys p).1.showBg = b) ∧
      ((∀ b, p.showBg ≠ JSVal.bool b) → (applyAndPersist sys p).1.showBg = sys.vars.showBg)) ∧
    ((∀ q, p.strokeWidth = JSVal.num (JSNum.fin q) →
        (applyAndPersist sys p).1.strokeWidth = JSNum.fin (min (max q 0) 12)) ∧
      ((∀ q, p.strokeWidth ≠ JSVal.num (JSNum.fin q)) →
        (applyAndPersist sys p).1.strokeWidth = sys.vars.strokeWidth)) ∧
    ((∀ t, p.strokeColor = JSVal.str t → (applyAndPersist sys p).1.strokeColor = t) ∧
      ((∀ t, p.strokeColor ≠ JSVal.str t) →
        (applyAndPersist sys p).1.strokeColor = sys.vars.strokeColor)) := by
  obtain ⟨hmax, hlo, hhi⟩ := hs
  rw [applyAndPersist_vars, applyAndPersist_fst]
  refine ⟨rfl, ⟨?_, ?_⟩, ⟨?_, ?_⟩, ⟨?_, ?_⟩, ⟨?_, ?_⟩, ⟨?_, ?_⟩, ⟨?_, ?_⟩, ⟨?_, ?_⟩, ⟨?_, ?_⟩⟩
  · intro q h
    simp [clampFields, mergeFields, h, JSVal.finiteOr, clampMaxWin_fin]
  · intro h
    have : p.maxWin.finiteOr sys.vars.maxWin = sys.vars.maxWin := by
      cases hv : p.maxWin with
      | num n => cases n with
        | fin q => exact absurd hv (h q)
        | _ => rfl
      | _ => rfl
    simp [clampFields, mergeFields, this, clampMaxWin_of_ge _ hmax]
  · intro q h
    simp [clampFields, mergeFields, h, JSVal.finiteOr]
  · intro h
    cases hv : p.current with
    | num n => cases n with
      | fin q => exact absurd hv (h q)
      | _ => simp [clampFields, mergeFields, hv, JSVal.finiteOr]
    | _ => simp [clampFields, mergeFields, hv, JSVal.finiteOr]
  · intro t h
    simp [clampFields, mergeFields, h, JSVal.stringOr]
  · intro h
    cases hv : p.theme with
    | str t => exact absurd hv (h t)
    | _ => simp [clampFields, mergeFields, hv, JSVal.stringOr]
  · intro t h
    simp [clampFields, mergeFields, h, JSVal.stringOr]
  · intro h
    cases hv : p.font with
    | str t => exact absurd hv (h t)
    | _ => simp [clampFields, mergeFields, hv, JSVal.stringOr]
  · intro t h
    simp [clampFields, mergeFields, h, JSVal.stringOr]
  · intro h
    cases hv : p.fontUrl with
    | str t => exact absurd hv (h t)
    | _ => simp [clampFields, mergeFields, hv, JSVal.stringOr]
  · intro b h
    simp [clampFields, mergeFields, h, JSVal.booleanOr]
  · intro h
    cases hv : p.showBg with
    | bool b => exact absurd hv (h b)
    | _ => simp [clampFields, mergeFields, hv, JSVal.booleanOr]
  · intro q h
    simp [clampFields, mergeFields, h, JSVal.finiteOr, clampStrokeWidth_fin]
  · intro h
    have : p.strokeWidth.finiteOr sys.vars.strokeWidth = sys.vars.strokeWidth := by
      cases hv : p.strokeWidth with
      | num n => cases n with
        | fin q => exact absurd hv (h q)
        | _ => rfl
      | _ => rfl
    simp [clampFields, mergeFields, this, clampStrokeWidth_of_range _ hlo hhi]
  · intro t h
    simp [clampFields, mergeFields, h, JSVal.stringOr]
  · intro h
    cases hv : p.strokeColor with
    | str t => exact absurd hv (h t)
    | _ => simp [clampFields, mergeFields, hv, JSVal.stringOr]

/-- C1, witness: at a fresh start, `applyAndPersist({ maxWin: 0, theme: null })`
returns `maxWin` 1 and the theme it had. -/
theorem applyAndPersist_merge_clamp_witness :
    (startWith none).vars.InRange ∧
    (applyAndPersist (startWith none) { maxWin := JSVal.num (JSNum.fin 0), theme := JSVal.null }).1.maxWin = JSNum.fin 1 ∧
    (applyAndPersist (startWith none) { maxWin := JSVal.num (JSNum.fin 0), theme := JSVal.null }).1.theme = "theme-default" :=
  ⟨initialState_inRange,
   by simpa using (applyAndPersist_merge_clamp (startWith none) { maxWin := JSVal.num (JSNum.fin 0), theme := JSVal.null } initialState_inRange).2.1.1 0 rfl,
   (applyAndPersist_merge_clamp (startWith none) { maxWin := JSVal.num (JSNum.fin 0), theme := JSVal.null } initialState_inRange).2.2.2.1.2 (by intro t; simp)⟩

/-! ### C2: the range of `maxWin` and `strokeWidth` -/

theorem clampMaxWin_finiteOr_ge (v : JSVal) (d : JSNum) (h : d.ge (JSNum.fin 1) = true) :
    (clampMaxWin (v.finiteOr d)).ge (JSNum.fin 1) = true := by
  have hd : (clampMaxWin d).ge (JSNum.fin 1) = true := by rw [clampMaxWin_of_ge d h]; exact h
  cases v with
  | num n =>
    cases n with
    | fin q => simp [JSVal.finiteOr, clampMaxWin_fin, JSNum.ge]
    | _ => exact hd
  | _ => exact hd

theorem clampStrokeWidth_finiteOr_range (v : JSVal) (d : JSNum)
    (hlo : d.ge (JSNum.fin 0) = true) (hhi : (JSNum.fin 12).ge d = true) :
    (clampStrokeWidth (v.finiteOr d)).ge (JSNum.fin 0) = true ∧
      (JSNum.fin 12).ge (clampStrokeWidth (v.finiteOr d)) = true := by
  have hd : (clampStrokeWidth d).ge (JSNum.fin 0) = true ∧
      (JSNum.fin 12).ge (clampStrokeWidth d) = true := by
    rw [clampStrokeWidth_of_range d hlo hhi]; exact ⟨hlo, hhi⟩
  cases v with
  | num n =>
    cases n with
    | fin q => simp [JSVal.finiteOr, clampStrokeWidth_fin, JSNum.ge]
    | _ => exact hd
  | _ => exact hd

/-- Every call of `applyAndPersist` keeps `maxWin >= 1` and `0 <= strokeWidth <= 12`. -/
theorem applyAndPersist_inRange (sys : Sys) (p : Patch) (h : sys.vars.InRange) :
    (applyAndPersist sys p).2.vars.InRange := by
  obtain ⟨hmax, hlo, hhi⟩ := h
  rw [applyAndPersist_vars]
  exact ⟨clampMaxWin_finiteOr_ge _ _ hmax,
    (clampStrokeWidth_finiteOr_range _ _ hlo hhi).1,
    (clampStrokeWidth_finiteOr_range _ _ hlo hhi).2⟩

/-- Every dispatcher action keeps `maxWin >= 1` and `0 <= strokeWidth <= 12`. -/
theorem handleWebhookAction_inRange (sys : Sys) (action : String) (rawArg : Option String)
    (h : sys.vars.InRange) : (handleWebhookAction sys action rawArg).2.vars.InRange := by
  rcases handleWebhookAction_cases sys action rawArg with ⟨e, he⟩ | ⟨p, hp⟩
  · rw [he]; exact h
  · rw [hp]; exact applyAndPersist_inRange sys p h

/-- C2, the code at the failing input: the system in which `loadConfig` read a
file with `maxWin` 0 and `strokeWidth` 50 is reachable from a fresh start, and
its variables hold `maxWin` 0 and `strokeWidth` 50, outside the ranges. -/
theorem loadConfig_out_of_range :
    Reachable afterEditedFile ∧
    afterEditedFile.vars.maxWin = JSNum.fin 0 ∧
    afterEditedFile.vars.strokeWidth = JSNum.fin 50 ∧
    ¬ afterEditedFile.vars.InRange := by
  refine ⟨?_, by decide!, by decide!, ?_⟩
  · exact Reachable.step (Reachable.start none) (Step.reload (startWith none)
      { file := some (FileContent.value
          { maxWin := JSVal.num (JSNum.fin 0), strokeWidth := JSVal.num (JSNum.fin 50) }) })
  · intro h
    exact absurd h.1 (by decide!)

/-! ### C3: when the dispatcher fails -/

/-- C3, counterexample: the payload `artjiraphatjtt:winoverlay:stroke:` parses to
the action `stroke` with the empty string as argument, an argument that is not
missing, and the dispatcher fails on it. -/
theorem stroke_empty_argument_fails :
    parsePayloadText defaultToken "artjiraphatjtt:winoverlay:stroke:" =
      Except.ok { action := "stroke", arg := some "" } ∧
    handleWebhookAction (startWith none) "stroke" (some "") =
      (Except.error "stroke needs \"<size>,<color>\"", startWith none) := by
  decide!

/-- C3, amended: `handleWebhookAction(action, arg)` fails exactly when the action
is `set_current` and the argument holds no leading integer (as a missing one
does) or holds one of magnitude at least `2 ^ 1024 - 2 ^ 970`, which `parseInt`
returns as `Infinity` or `-Infinity`; or the action is `theme`, `font` or
`stroke` and the argument is missing or empty; or the action is not one of the
nine identifiers, and then the error is `unknown action: ` followed by the
action.  Whenever it fails the variables, the file and the sockets are as they
were.  So `set_current` with the 400 nines fails, and with `7` it sets
`current` to 7. -/
theorem handleWebhookAction_fails_iff (sys : Sys) (action : String) (rawArg : Option String) :
    (threw (handleWebhookAction sys action rawArg).1 = true ↔
      (action = "set_current" ∧
        (leadingInteger rawArg = none ∨
          ∃ z : ℤ, leadingInteger rawArg = some z ∧
            (2 : ℚ) ^ 1024 - (2 : ℚ) ^ 970 ≤ |(z : ℚ)|)) ∨
      ((action = "theme" ∨ action = "font" ∨ action = "stroke") ∧
        (rawArg = none ∨ rawArg = some "")) ∨
      action ∉ knownActions) ∧
    (threw (handleWebhookAction sys action rawArg).1 = true →
      (handleWebhookAction sys action rawArg).2 = sys) ∧
    (action ∉ knownActions →
      (handleWebhookAction sys action rawArg).1 = Except.error ("unknown action: " ++ action)) ∧
    leadingInteger none = none ∧
    leadingInteger (some "abc") = none ∧
    leadingInteger (some " -42abc") = some (-42) ∧
    leadingInteger (some fourHundredNines) = some (10 ^ 400 - 1) ∧
    handleWebhookAction (startWith none) "set_current" (some fourHundredNines) =
      (Except.error "set_current needs a number", startWith none) ∧
    (handleWebhookAction (startWith none) "set_current" (some "7")).1 =
      Except.ok { initialState with current := JSNum.fin 7 } := by
  refine ⟨?_, ?_, ?_, by decide, by decide, by decide, by decide!, by decide!, by decide!⟩
  · rw [threw_iff_isFinite, parseInt_isFinite_eq_false_iff]
  · intro h
    rcases handleWebhookAction_cases sys action rawArg with ⟨e, he⟩ | ⟨p, hp⟩
    · rw [he]
    · rw [hp] at h; simp [threw] at h
  · intro h
    simp only [knownActions, List.mem_cons, List.mem_singleton, not_or, List.not_mem_nil,
      or_false] at h
    obtain ⟨h1, h2, h3, h4, h5, h6, h7, h8, h9⟩ := h
    simp [handleWebhookAction, h1, h2, h3, h4, h5, h6, h7, h8, h9]

/-- C3, witness: the action `WIN_PLUS` is not one of the nine identifiers and is
rejected as unknown, the system left as it was. -/
theorem handleWebhookAction_fails_iff_witness :
    "WIN_PLUS" ∉ knownActions ∧
    (handleWebhookAction (startWith none) "WIN_PLUS" (some "1")).1 =
      Except.error "unknown action: WIN_PLUS" ∧
    (handleWebhookAction (startWith none) "WIN_PLUS" (some "1")).2 = startWith none :=
  ⟨by decide,
   (handleWebhookAction_fails_iff (startWith none) "WIN_PLUS" (some "1")).2.2.1 (by decide),
   (handleWebhookAction_fails_iff (startWith none) "WIN_PLUS" (some "1")).2.1
     (((handleWebhookAction_fails_iff (startWith none) "WIN_PLUS" (some "1")).1).mpr
       (Or.inr (Or.inr (by decide))))⟩

/-! ### C4: the webhook grammar -/

/-- C4: `parsePayload`, on the decoded text, fails with the format error when the
text has fewer than three parts between colons; otherwise with `invalid token`
when the first part is not the configured token; otherwise with
`invalid app name` when the second part is not `winoverlay`; otherwise it
returns the third part as the action and the remaining parts joined with colons
as the argument, `undefined` when none remain.  So a payload
`TOKEN:winoverlay:<action>:a` yields exactly `a`, colons of `a` included (the
token and the action being free of colons), and a payload without a fourth part
yields no argument.  A rejected payload leaves the system as it was, as for
`badtoken:winoverlay:win_plus`. -/
theorem parsePayloadText_spec (tok text : String) :
    ((split text ':').length < 3 →
      parsePayloadText tok text = Except.error "payload format: token:app:action[:arg]") ∧
    (∀ token appName action rest, split text ':' = token :: appName :: action :: rest →
      (token ≠ tok → parsePayloadText tok text = Except.error "invalid token") ∧
      (token = tok → appName ≠ "winoverlay" →
        parsePayloadText tok text = Except.error "invalid app name") ∧
      (token = tok → appName = "winoverlay" →
        parsePayloadText tok text =
          Except.ok { action := action, arg := if rest = [] then none else some (join rest ':') })) ∧
    (∀ action a : String, ':' ∉ tok.data → ':' ∉ action.data →
      parsePayloadText tok (tok ++ ":" ++ "winoverlay" ++ ":" ++ action ++ ":" ++ a) =
        Except.ok { action := action, arg := some a }) ∧
    (∀ action : String, ':' ∉ tok.data → ':' ∉ action.data →
      parsePayloadText tok (tok ++ ":" ++ "winoverlay" ++ ":" ++ action) =
        Except.ok { action := action, arg := none }) ∧
    (∀ sys e, parsePayloadText tok text = Except.error e →
      hookRoute tok sys text = (HookResponse.badRequest e, sys)) ∧
    hookRoute defaultToken (startWith none) "badtoken:winoverlay:win_plus" =
      (HookResponse.badRequest "invalid token", startWith none) := by
  have gen : ∀ (t : String) token appName action rest,
      split t ':' = token :: appName :: action :: rest →
      (token ≠ tok → parsePayloadText tok t = Except.error "invalid token") ∧
      (token = tok → appName ≠ "winoverlay" →
        parsePayloadText tok t = Except.error "invalid app name") ∧
      (token = tok → appName = "winoverlay" →
        parsePayloadText tok t =
          Except.ok { action := action, arg := if rest = [] then none else some (join rest ':') }) := by
    intro t token appName action rest h
    refine ⟨?_, ?_, ?_⟩
    · intro h1
      simp [parsePayloadText, h, h1]
    · intro h1 h2
      simp [parsePayloadText, h, h1, h2, APP_NAME]
    · intro h1 h2
      cases rest <;> simp [parsePayloadText, h, h1, h2, APP_NAME]
  refine ⟨?_, gen text, ?_, ?_, ?_, by decide!⟩
  · intro h
    unfold parsePayloadText
    split
    · next h' => rw [h'] at h; simp at h; omega
    · rfl
  · intro action a htok hact
    have hs := split_payload tok action a htok hact
    have := (gen _ _ _ _ _ hs).2.2 rfl rfl
    simp only [APP_NAME] at this
    rw [this]
    simp [split_ne_nil, join_split]
  · intro action htok hact
    have hs := split_payload_noarg tok action htok hact
    have := (gen _ _ _ _ _ hs).2.2 rfl rfl
    simp only [APP_NAME] at this
    rw [this]
    simp
  · intro sys e h
    simp [hookRoute, h]

/-- C4, witness: with the default token, the argument `a:b,c` of the action
`stroke` comes back whole. -/
theorem parsePayloadText_spec_witness :
    ':' ∉ defaultToken.data ∧ ':' ∉ "stroke".data ∧
    parsePayloadText defaultToken
        (defaultToken ++ ":" ++ "winoverlay" ++ ":" ++ "stroke" ++ ":" ++ "a:b,c") =
      Except.ok { action := "stroke", arg := some "a:b,c" } :=
  ⟨by decide, by decide,
   (parsePayloadText_spec defaultToken "").2.2.1 "stroke" "a:b,c" (by decide) (by decide)⟩

/-! ### C5: loading what was just saved -/

/-- C5: when the write and the read of the file succeed, `loadConfig()` called
right after `applyAndPersist(p)` returns the state `applyAndPersist(p)` returned,
and leaves the variables, the file and the sockets as they were. -/
theorem loadConfig_after_applyAndPersist (sys : Sys) (p : Patch)
    (hw : sys.disk.writeFails = false) (hr : sys.disk.readFails = false) :
    loadConfig (applyAndPersist sys p).2 = ((applyAndPersist sys p).1, (applyAndPersist sys p).2) := by
  have hd := applyAndPersist_disk sys p
  have hv := applyAndPersist_vars sys p
  have hf := applyAndPersist_fst sys p
  simp only [hw, Bool.false_eq_true, if_false] at hd
  generalize applyAndPersist sys p = r at hd hv hf
  obtain ⟨saved, ⟨vars, disk, ws⟩⟩ := r
  simp only at hd hv hf
  subst hd hv hf
  simp [loadConfig, ensureConfigFile, Disk.readFileSync, hr, assignLoaded_stringify]

/-- C5, witness: at a fresh start with no file, after
`applyAndPersist({ current: 3 })`. -/
theorem loadConfig_after_applyAndPersist_witness :
    (startWith none).disk.writeFails = false ∧ (startWith none).disk.readFails = false ∧
    loadConfig (applyAndPersist (startWith none) { current := JSVal.num (JSNum.fin 3) }).2 =
      ((applyAndPersist (startWith none) { current := JSVal.num (JSNum.fin 3) }).1,
        (applyAndPersist (startWith none) { current := JSVal.num (JSNum.fin 3) }).2) :=
  ⟨rfl, rfl,
   loadConfig_after_applyAndPersist (startWith none) { current := JSVal.num (JSNum.fin 3) }
     rfl rfl⟩

/-! ### C6: the broadcast of `applyAndPersist` -/

/-- C6: after `applyAndPersist(p)` the list `wsClients` holds the same sockets in
the same order, each with the `readyState` it had; a socket whose `readyState`
is 1 was sent exactly one more message, the envelope of type `state` whose data
is the state `applyAndPersist(p)` returns, and any other socket was sent
nothing. -/
theorem applyAndPersist_broadcast (sys : Sys) (p : Patch) :
    List.Forall₂
      (fun ws ws1 : Session =>
        ws1.id = ws.id ∧ ws1.readyState = ws.readyState ∧
        (ws.readyState = 1 →
          ws1.sent = ws.sent ++ [{ type := "state", data := stringify (applyAndPersist sys p).1 }]) ∧
        (ws.readyState ≠ 1 → ws1.sent = ws.sent))
      sys.wsClients (applyAndPersist sys p).2.wsClients := by
  rw [applyAndPersist_wsClients, applyAndPersist_fst, List.forall₂_map_right_iff,
    List.forall₂_same]
  intro ws _
  by_cases h : ws.readyState = 1 <;> simp [h, Session.send]

/-! ### C7: `win_plus` and `win_minus` -/

/-- C7, counterexample: the argument of 400 nines holds the integer
`10 ^ 400 - 1`, yet `win_plus` with it at `current` 5 gives 6 and `win_minus`
gives 4, a step of 1; and at `current` 9007199254740992 `win_plus` with `1`
leaves `current` at 9007199254740992. -/
theorem win_plus_step_not_the_integer :
    leadingInteger (some fourHundredNines) = some (10 ^ 400 - 1) ∧
    (handleWebhookAction (startAt 5) "win_plus" (some fourHundredNines)).2.vars.current =
      JSNum.fin 6 ∧
    (handleWebhookAction (startAt 5) "win_minus" (some fourHundredNines)).2.vars.current =
      JSNum.fin 4 ∧
    (handleWebhookAction (startAt 9007199254740992) "win_plus" (some "1")).2.vars.current =
      JSNum.fin 9007199254740992 := by
  decide!

/-- C7, amended: `win_plus` and `win_minus` never fail and return the state they
leave in the variables.  With `n` the number `parseInt` returns for the argument
when that is finite, and 1 otherwise, `current` becomes the sum `c + n`,
respectively the difference `c - n`, of JavaScript numbers when that is finite
and stays `c` when it is not.  In integers: when `c` is an integer and the step
`k` is the integer read in the argument, of magnitude at most `2 ^ 53`, or 1
because none is read (as for a missing argument) or the one read is beyond the
doubles, `current` becomes exactly `c + k` when that has magnitude at most
`2 ^ 53`, and exactly `c - k` likewise.  With argument `3` at `current` 5,
`win_plus` gives 8 and `win_minus` gives 2; at `current` 9007199254740992
`win_plus` with `1` leaves it there, the sum rounding back; and at the largest
double `win_plus` with `10 ^ 292` leaves it there, the sum being `Infinity`. -/
theorem win_plus_minus_current (sys : Sys) (rawArg : Option String) :
    ((handleWebhookAction sys "win_plus" rawArg).1 =
        Except.ok (handleWebhookAction sys "win_plus" rawArg).2.vars ∧
      (handleWebhookAction sys "win_minus" rawArg).1 =
        Except.ok (handleWebhookAction sys "win_minus" rawArg).2.vars) ∧
    (∀ n : ℚ, (parseInt rawArg = JSNum.fin n ∨ ((parseInt rawArg).isFinite = false ∧ n = 1)) →
      (handleWebhookAction sys "win_plus" rawArg).2.vars.current =
        (if (sys.vars.current.add (JSNum.fin n)).isFinite
          then sys.vars.current.add (JSNum.fin n) else sys.vars.current) ∧
      (handleWebhookAction sys "win_minus" rawArg).2.vars.current =
        (if (sys.vars.current.sub (JSNum.fin n)).isFinite
          then sys.vars.current.sub (JSNum.fin n) else sys.vars.current)) ∧
    (∀ c k : ℤ, sys.vars.current = JSNum.fin (c : ℚ) → |k| ≤ 2 ^ 53 →
      (leadingInteger rawArg = some k ∨ (leadingInteger rawArg = none ∧ k = 1) ∨
        ((∃ z : ℤ, leadingInteger rawArg = some z ∧
          (2 : ℚ) ^ 1024 - (2 : ℚ) ^ 970 ≤ |(z : ℚ)|) ∧ k = 1)) →
      (|c + k| ≤ 2 ^ 53 →
        (handleWebhookAction sys "win_plus" rawArg).2.vars.current =
          JSNum.fin ((c + k : ℤ) : ℚ)) ∧
      (|c - k| ≤ 2 ^ 53 →
        (handleWebhookAction sys "win_minus" rawArg).2.vars.current =
          JSNum.fin ((c - k : ℤ) : ℚ))) ∧
    leadingInteger none = none ∧
    leadingInteger (some "3") = some 3 ∧
    (handleWebhookAction (startAt 5) "win_plus" (some "3")).2.vars.current = JSNum.fin 8 ∧
    (handleWebhookAction (startAt 5) "win_minus" (some "3")).2.vars.current = JSNum.fin 2 ∧
    (handleWebhookAction (startAt 5) "win_plus" none).2.vars.current = JSNum.fin 6 ∧
    (handleWebhookAction (startAt 9007199254740992) "win_plus" (some "1")).2.vars.current =
      JSNum.fin 9007199254740992 ∧
    (handleWebhookAction (startAt (2 ^ 1024 - 2 ^ 971)) "win_plus"
      (some tenPow292)).2.vars.current = JSNum.fin (2 ^ 1024 - 2 ^ 971) := by
  refine ⟨⟨?_, ?_⟩, ?_, ?_, by decide, by decide, by decide!, by decide!, by decide!,
    by decide!, by decide!⟩
  · rw [handleWebhookAction_win_plus, applyAndPersist_vars, applyAndPersist_fst]
  · rw [handleWebhookAction_win_minus, applyAndPersist_vars, applyAndPersist_fst]
  · intro n h
    exact ⟨win_plus_current sys rawArg n (step_of_parseInt rawArg n h),
      win_minus_current sys rawArg n (step_of_parseInt rawArg n h)⟩
  · intro c k hc hk h
    have hstep := step_of_leadingInteger rawArg k hk h
    constructor
    · intro hb
      rw [win_plus_current sys rawArg _ hstep, hc, add_intCast c k hb]
      simp [JSNum.isFinite]
    · intro hb
      rw [win_minus_current sys rawArg _ hstep, hc, sub_intCast c k hb]
      simp [JSNum.isFinite]

/-- C7, witness: at `current` 5 the argument `3` is read as the integer 3, and
`win_plus` gives 8. -/
theorem win_plus_minus_current_witness :
    (startAt 5).vars.current = JSNum.fin ((5 : ℤ) : ℚ) ∧ |(3 : ℤ)| ≤ 2 ^ 53 ∧
    leadingInteger (some "3") = some 3 ∧ |(5 : ℤ) + 3| ≤ 2 ^ 53 ∧
    (handleWebhookAction (startAt 5) "win_plus" (some "3")).2.vars.current =
      JSNum.fin (((5 : ℤ) + 3 : ℤ) : ℚ) :=
  ⟨by decide!, by decide, by decide, by decide,
   ((win_plus_minus_current (startAt 5) (some "3")).2.2.1 5 3 (by decide!) (by decide)
     (Or.inl (by decide))).1 (by decide)⟩

/-! ### C8: `stroke` -/

/-- C8, counterexample: in the state read from a file with `maxWin` 0 and
`strokeWidth` 50, `stroke` with `x,#ff0000`, whose width text holds no number,
changes `maxWin` to 1 and `strokeWidth` to 12; and at a fresh start `stroke` with
`1e999,#ff0000`, whose width text parses to `Infinity`, leaves `strokeWidth`
at 2. -/
theorem stroke_changes_out_of_range_fields :
    afterEditedFile.vars.maxWin = JSNum.fin 0 ∧
    afterEditedFile.vars.strokeWidth = JSNum.fin 50 ∧
    parseFloat (textBefore ',' "x,#ff0000") = JSNum.nan ∧
    (handleWebhookAction afterEditedFile "stroke" (some "x,#ff0000")).2.vars.maxWin =
      JSNum.fin 1 ∧
    (handleWebhookAction afterEditedFile "stroke" (some "x,#ff0000")).2.vars.strokeWidth =
      JSNum.fin 12 ∧
    parseFloat (textBefore ',' "1e999,#ff0000") = JSNum.posInf ∧
    (handleWebhookAction (startWith none) "stroke" (some "1e999,#ff0000")).2.vars.strokeWidth =
      JSNum.fin 2 := by
  decide!

/-- C8, amended: in a state with `maxWin >= 1` and `0 <= strokeWidth <= 12`,
`stroke` with a non-empty argument does not fail; it sets `strokeWidth` to the
finite number `parseFloat` reads in the text before the first comma, clamped into
[0, 12], or leaves it when `parseFloat` returns no finite number; when the text
after the first comma holds no further comma, it sets `strokeColor` to that
text, or leaves it when that text is absent or empty; the six other fields are
as they were.  The payload `artjiraphatjtt:winoverlay:stroke:5,#ff0000` gives
`strokeWidth` 5 and `strokeColor` `#ff0000`; the width texts `5`, `2.5` and
`1e999` parse to 5, 2.5 and `Infinity`. -/
theorem stroke_width_color (sys : Sys) (s : String) (hs : s ≠ "") (hr : sys.vars.InRange) :
    (handleWebhookAction sys "stroke" (some s)).1 =
      Except.ok (handleWebhookAction sys "stroke" (some s)).2.vars ∧
    (∀ q, parseFloat (textBefore ',' s) = JSNum.fin q →
      (handleWebhookAction sys "stroke" (some s)).2.vars.strokeWidth =
        JSNum.fin (min (max q 0) 12)) ∧
    ((∀ q, parseFloat (textBefore ',' s) ≠ JSNum.fin q) →
      (handleWebhookAction sys "stroke" (some s)).2.vars.strokeWidth = sys.vars.strokeWidth) ∧
    (∀ t, textAfter ',' s = some t → ',' ∉ t.data → t ≠ "" →
      (handleWebhookAction sys "stroke" (some s)).2.vars.strokeColor = t) ∧
    (textAfter ',' s = some "" →
      (handleWebhookAction sys "stroke" (some s)).2.vars.strokeColor = sys.vars.strokeColor) ∧
    (textAfter ',' s = none →
      (handleWebhookAction sys "stroke" (some s)).2.vars.strokeColor = sys.vars.strokeColor) ∧
    ((handleWebhookAction sys "stroke" (some s)).2.vars.maxWin = sys.vars.maxWin ∧
      (handleWebhookAction sys "stroke" (some s)).2.vars.current = sys.vars.current ∧
      (handleWebhookAction sys "stroke" (some s)).2.vars.theme = sys.vars.theme ∧
      (handleWebhookAction sys "stroke" (some s)).2.vars.font = sys.vars.font ∧
      (handleWebhookAction sys "stroke" (some s)).2.vars.fontUrl = sys.vars.fontUrl ∧
      (handleWebhookAction sys "stroke" (some s)).2.vars.showBg = sys.vars.showBg) ∧
    (hookRoute defaultToken (startWith none) "artjiraphatjtt:winoverlay:stroke:5,#ff0000").1 =
      HookResponse.ok "stroke"
        { initialState with strokeWidth := JSNum.fin 5, strokeColor := "#ff0000" } ∧
    parseFloat "5" = JSNum.fin 5 ∧
    parseFloat "2.5" = JSNum.fin (5 / 2) ∧
    parseFloat "1e999" = JSNum.posInf ∧
    (handleWebhookAction (startWith none) "stroke" (some "2.5")).2.vars.strokeWidth =
      JSNum.fin (5 / 2) := by
  obtain ⟨hmax, hlo, hhi⟩ := hr
  rw [handleWebhookAction_stroke sys s hs, applyAndPersist_vars, applyAndPersist_fst,
    split_headD, split_second]
  refine ⟨rfl, ?_, ?_, ?_, ?_, ?_, ?_, by decide!, by decide!, by decide!, by decide!,
    by decide!⟩
  · intro q h
    simp [h, clampFields, mergeFields, JSNum.isFinite, JSVal.finiteOr, clampStrokeWidth_fin]
  · intro h
    have hf : (parseFloat (textBefore ',' s)).isFinite = false := by
      cases hp : parseFloat (textBefore ',' s) with
      | fin q => exact absurd hp (h q)
      | _ => rfl
    have hw : (JSVal.num sys.vars.strokeWidth).finiteOr sys.vars.strokeWidth =
        sys.vars.strokeWidth := by
      cases sys.vars.strokeWidth <;> rfl
    simp [hf, clampFields, mergeFields, hw, clampStrokeWidth_of_range _ hlo hhi]
  · intro t h hcomma hne
    simp [h, clampFields, mergeFields, JSVal.stringOr, orString,
      textBefore_of_not_mem ',' t hcomma, hne]
  · intro h
    have : textBefore ',' "" = "" := rfl
    simp [h, clampFields, mergeFields, JSVal.stringOr, orString, this]
  · intro h
    simp [h, clampFields, mergeFields, JSVal.stringOr, orString]
  · simp [clampFields, mergeFields, JSVal.finiteOr, JSVal.stringOr, JSVal.booleanOr,
      clampMaxWin_of_ge _ hmax]

/-- C8, witness: at a fresh start, `stroke` with `5,#ff0000` sets the width 5 and
the colour `#ff0000`. -/
theorem stroke_width_color_witness :
    "5,#ff0000" ≠ "" ∧ (startWith none).vars.InRange ∧
    parseFloat (textBefore ',' "5,#ff0000") = JSNum.fin 5 ∧
    (handleWebhookAction (startWith none) "stroke" (some "5,#ff0000")).2.vars.strokeWidth =
      JSNum.fin (min (max 5 0) 12) ∧
    textAfter ',' "5,#ff0000" = some "#ff0000" ∧
    (handleWebhookAction (startWith none) "stroke" (some "5,#ff0000")).2.vars.strokeColor =
      "#ff0000" :=
  ⟨by decide, initialState_inRange, by decide!,
   (stroke_width_color (startWith none) "5,#ff0000" (by decide) initialState_inRange).2.1 5
     (by decide!),
   by decide,
   (stroke_width_color (startWith none) "5,#ff0000" (by decide)
     initialState_inRange).2.2.2.1 "#ff0000" (by decide) (by decide) (by decide)⟩

/-! ### C9: `set_max` -/

/-- C9, counterexample: the argument of 400 nines holds the integer
`10 ^ 400 - 1`, which is at least 1, yet `set_max` with it stores 1; and with
`9007199254740993` it stores 9007199254740992. -/
theorem set_max_beyond_doubles :
    leadingInteger (some fourHundredNines) = some (10 ^ 400 - 1) ∧
    (handleWebhookAction (startWith none) "set_max" (some fourHundredNines)).2.vars.maxWin =
      JSNum.fin 1 ∧
    leadingInteger (some "9007199254740993") = some 9007199254740993 ∧
    (handleWebhookAction (startWith none) "set_max" (some "9007199254740993")).2.vars.maxWin =
      JSNum.fin 9007199254740992 := by
  decide!

/-- C9, amended: `set_max` never fails and returns the state it leaves in the
variables; in it `maxWin` is the number `parseInt` returns for the argument when
that is finite and at least 1, and 1 otherwise.  In integers: `maxWin` is the
integer read in the argument when that lies between 1 and `2 ^ 53`, and 1 when
the integer read is zero or negative, when none is read (as for a missing
argument), and when the one read is `2 ^ 1024 - 2 ^ 970` or more, which
`parseInt` returns as `Infinity`.  With argument `0`, `maxWin` becomes 1 without
an error; with `25` it becomes 25. -/
theorem set_max_maxWin (sys : Sys) (rawArg : Option String) :
    (handleWebhookAction sys "set_max" rawArg).1 =
      Except.ok (handleWebhookAction sys "set_max" rawArg).2.vars ∧
    (∀ n, parseInt rawArg = JSNum.fin n → 1 ≤ n →
      (handleWebhookAction sys "set_max" rawArg).2.vars.maxWin = JSNum.fin n) ∧
    (∀ n, parseInt rawArg = JSNum.fin n → n < 1 →
      (handleWebhookAction sys "set_max" rawArg).2.vars.maxWin = JSNum.fin 1) ∧
    ((parseInt rawArg).isFinite = false →
      (handleWebhookAction sys "set_max" rawArg).2.vars.maxWin = JSNum.fin 1) ∧
    (∀ k : ℤ, leadingInteger rawArg = some k → 1 ≤ k → k ≤ 2 ^ 53 →
      (handleWebhookAction sys "set_max" rawArg).2.vars.maxWin = JSNum.fin (k : ℚ)) ∧
    (∀ k : ℤ, leadingInteger rawArg = some k → k ≤ 0 →
      (handleWebhookAction sys "set_max" rawArg).2.vars.maxWin = JSNum.fin 1) ∧
    (leadingInteger rawArg = none →
      (handleWebhookAction sys "set_max" rawArg).2.vars.maxWin = JSNum.fin 1) ∧
    (∀ k : ℤ, leadingInteger rawArg = some k → (2 : ℚ) ^ 1024 - (2 : ℚ) ^ 970 ≤ (k : ℚ) →
      (handleWebhookAction sys "set_max" rawArg).2.vars.maxWin = JSNum.fin 1) ∧
    leadingInteger none = none ∧
    handleWebhookAction (startWith none) "set_max" (some "0") =
      (Except.ok { initialState with maxWin := JSNum.fin 1 },
        { startWith none with
          vars := { initialState with maxWin := JSNum.fin 1 }
          disk := { file := some (FileContent.value
            (stringify { initialState with maxWin := JSNum.fin 1 })) } }) ∧
    (handleWebhookAction (startWith none) "set_max" (some "25")).1 =
      Except.ok { initialState with maxWin := JSNum.fin 25 } := by
  have A : ∀ n, parseInt rawArg = JSNum.fin n → 1 ≤ n →
      (handleWebhookAction sys "set_max" rawArg).2.vars.maxWin = JSNum.fin n := by
    intro n h hn
    apply set_max_value sys rawArg n hn
    simp [h, JSNum.isFinite, JSNum.ge, hn]
  have B : ∀ n, parseInt rawArg = JSNum.fin n → n < 1 →
      (handleWebhookAction sys "set_max" rawArg).2.vars.maxWin = JSNum.fin 1 := by
    intro n h hn
    apply set_max_one
    simp [h, JSNum.isFinite, JSNum.ge, not_le.mpr hn]
  have C : (parseInt rawArg).isFinite = false →
      (handleWebhookAction sys "set_max" rawArg).2.vars.maxWin = JSNum.fin 1 := by
    intro h
    apply set_max_one
    simp [h]
  refine ⟨?_, A, B, C, ?_, ?_, ?_, ?_, by decide, by decide!, by decide!⟩
  · rw [handleWebhookAction_set_max, applyAndPersist_vars, applyAndPersist_fst]
  · intro k h h1 h2
    have hk : |k| ≤ 2 ^ 53 := abs_le.mpr ⟨by omega, h2⟩
    exact A _ (parseInt_of_safe rawArg k h hk) (by exact_mod_cast h1)
  · intro k h hk
    have hp := parseInt_some_of rawArg k h
    cases hr : roundToDouble (k : ℚ) with
    | fin r =>
      have hr0 : r ≤ 0 := roundToDouble_nonpos (k : ℚ) r (by exact_mod_cast hk) hr
      exact B r (by rw [hp, hr]) (by linarith)
    | posInf => exact C (by rw [hp, hr]; rfl)
    | negInf => exact C (by rw [hp, hr]; rfl)
    | nan => exact C (by rw [hp, hr]; rfl)
  · intro h
    exact C ((parseInt_isFinite_eq_false_iff rawArg).mpr (Or.inl h))
  · intro k h hk
    have hthr : (0 : ℚ) < (2 : ℚ) ^ 1024 - (2 : ℚ) ^ 970 := by
      have : (2 : ℚ) ^ 970 < (2 : ℚ) ^ 1024 :=
        pow_lt_pow_right₀ (by norm_num) (by norm_num)
      linarith
    have : (2 : ℚ) ^ 1024 - (2 : ℚ) ^ 970 ≤ |(k : ℚ)| := by
      rw [abs_of_pos (by linarith)]; exact hk
    exact C ((parseInt_isFinite_eq_false_iff rawArg).mpr (Or.inr ⟨k, h, this⟩))

/-- C9, witness: the argument `25` is read as the integer 25 and stored. -/
theorem set_max_maxWin_witness :
    leadingInteger (some "25") = some 25 ∧ (1 : ℤ) ≤ 25 ∧ (25 : ℤ) ≤ 2 ^ 53 ∧
    (handleWebhookAction (startWith none) "set_max" (some "25")).2.vars.maxWin =
      JSNum.fin ((25 : ℤ) : ℚ) :=
  ⟨by decide, by decide, by decide,
   (set_max_maxWin (startWith none) (some "25")).2.2.2.2.1 25 (by decide) (by decide)
     (by decide)⟩

/-! ### C10: idempotence -/

/-- C10: calling `applyAndPersist(p)` a second time right after the first returns
the same state and leaves the same variables and the same file as the first
call did. -/
theorem applyAndPersist_idempotent (sys : Sys) (p : Patch) :
    (applyAndPersist (applyAndPersist sys p).2 p).1 = (applyAndPersist sys p).1 ∧
    (applyAndPersist (applyAndPersist sys p).2 p).2.vars = (applyAndPersist sys p).2.vars ∧
    (applyAndPersist (applyAndPersist sys p).2 p).2.disk = (applyAndPersist sys p).2.disk := by
  refine ⟨?_, ?_, ?_⟩
  · rw [applyAndPersist_fst, applyAndPersist_vars, clamp_merge_idem, applyAndPersist_fst]
  · rw [applyAndPersist_vars, applyAndPersist_vars, clamp_merge_idem]
  · rw [applyAndPersist_disk, applyAndPersist_vars, clamp_merge_idem, applyAndPersist_disk]
    cases h : sys.disk.writeFails <;> simp [h]

/-! ### Shared lemmas on loading, sessions and `bg` -/

theorem stringify_initialState : stringify initialState = defaultRecord := by decide!

theorem ensureConfigFile_readFails (d : Disk) :
    (ensureConfigFile d).readFails = d.readFails := by
  obtain ⟨file, readFails, writeFails⟩ := d
  cases file <;> cases writeFails <;> rfl

theorem loadConfig_of_not_value (sys : Sys)
    (h : ∀ cfg, (ensureConfigFile sys.disk).readFileSync ≠ some (FileContent.value cfg)) :
    loadConfig sys = (sys.vars, { sys with disk := ensureConfigFile sys.disk }) := by
  unfold loadConfig
  cases hc : (ensureConfigFile sys.disk).readFileSync with
  | none => simp only [hc]
  | some c =>
    cases c with
    | value cfg => exact absurd hc (h cfg)
    | unparseable => simp only [hc]
    | null => simp only [hc]

theorem loadConfig_vars (sys : Sys) : (loadConfig sys).2.vars = (loadConfig sys).1 := by
  unfold loadConfig
  cases hc : (ensureConfigFile sys.disk).readFileSync with
  | none => simp only [hc]
  | some c =>
    cases c with
    | value cfg => simp only [hc]
    | unparseable => simp only [hc]
    | null => simp only [hc]

/-- The variables always hold the state that `applyAndPersist` or `loadConfig`
returned last. -/
theorem reachedWith_vars {sys : Sys} {last : OverlayState} (h : ReachedWith sys last) :
    sys.vars = last := by
  induction h with
  | start file => rfl
  | apply next _ _ => rw [applyAndPersist_vars, applyAndPersist_fst]
  | load _ _ => exact loadConfig_vars _
  | @dispatch sys last action rawArg _ ih =>
    rcases handleWebhookAction_cases sys action rawArg with ⟨e, he⟩ | ⟨p, hp⟩
    · rw [he]; exact ih
    · rw [hp]
      simp only
      rw [applyAndPersist_vars, applyAndPersist_fst]
  | edit d _ ih => exact ih
  | connect ws _ ih => exact ih
  | close ws _ ih => exact ih

theorem handleWebhookAction_bg (sys : Sys) (rawArg : Option String) :
    handleWebhookAction sys "bg" rawArg =
      (Except.ok (applyAndPersist sys { showBg := (JSVal.bool
          (toLowerCase (orString rawArg "") = "1" || toLowerCase (orString rawArg "") = "true" ||
            toLowerCase (orString rawArg "") = "on")) }).1,
        (applyAndPersist sys { showBg := (JSVal.bool
          (toLowerCase (orString rawArg "") = "1" || toLowerCase (orString rawArg "") = "true" ||
            toLowerCase (orString rawArg "") = "on")) }).2) := by
  have h1 : ¬ "bg" = "win_plus" := by decide
  have h2 : ¬ "bg" = "win_minus" := by decide
  have h3 : ¬ "bg" = "set_current" := by decide
  have h4 : ¬ "bg" = "set_max" := by decide
  have h5 : ¬ "bg" = "theme" := by decide
  have h6 : ¬ "bg" = "font" := by decide
  have h7 : ¬ "bg" = "fonturl" := by decide
  simp only [handleWebhookAction, if_neg h1, if_neg h2, if_neg h3, if_neg h4, if_neg h5,
    if_neg h6, if_neg h7, if_true]

theorem toLowerCase_empty : toLowerCase "" = "" := rfl

/-! ### C11: `theme` and `font` -/

/-- No dispatcher action stores an empty `theme` or `font`. -/
theorem handleWebhookAction_theme_font (sys : Sys) (action : String) (rawArg : Option String)
    (ht : sys.vars.theme ≠ "") (hf : sys.vars.font ≠ "") :
    (handleWebhookAction sys action rawArg).2.vars.theme ≠ "" ∧
    (handleWebhookAction sys action rawArg).2.vars.font ≠ "" := by
  by_cases h1 : action = "win_plus"
  · subst h1
    simp [handleWebhookAction, applyAndPersist_vars, clampFields, mergeFields, JSVal.stringOr,
      ht, hf]
  by_cases h2 : action = "win_minus"
  · subst h2
    simp [handleWebhookAction, applyAndPersist_vars, clampFields, mergeFields, JSVal.stringOr,
      ht, hf]
  by_cases h3 : action = "set_current"
  · subst h3
    by_cases hn : (parseInt rawArg).isFinite = true <;>
      simp [handleWebhookAction, applyAndPersist_vars, clampFields, mergeFields,
        JSVal.stringOr, ht, hf, hn]
  by_cases h4 : action = "set_max"
  · subst h4
    simp [handleWebhookAction, applyAndPersist_vars, clampFields, mergeFields, JSVal.stringOr,
      ht, hf]
  by_cases h5 : action = "theme"
  · subst h5
    cases rawArg with
    | none => simp [handleWebhookAction, ht, hf]
    | some s =>
      by_cases hs : s = "" <;>
        simp [handleWebhookAction, applyAndPersist_vars, clampFields, mergeFields,
          JSVal.stringOr, ht, hf, hs]
  by_cases h6 : action = "font"
  · subst h6
    cases rawArg with
    | none => simp [handleWebhookAction, ht, hf]
    | some s =>
      by_cases hs : s = "" <;>
        simp [handleWebhookAction, applyAndPersist_vars, clampFields, mergeFields,
          JSVal.stringOr, ht, hf, hs]
  by_cases h7 : action = "fonturl"
  · subst h7
    simp [handleWebhookAction, applyAndPersist_vars, clampFields, mergeFields, JSVal.stringOr,
      ht, hf]
  by_cases h8 : action = "bg"
  · subst h8
    simp [handleWebhookAction, applyAndPersist_vars, clampFields, mergeFields, JSVal.stringOr,
      ht, hf]
  by_cases h9 : action = "stroke"
  · subst h9
    cases rawArg with
    | none => simp [handleWebhookAction, ht, hf]
    | some s =>
      by_cases hs : s = "" <;>
        simp [handleWebhookAction, applyAndPersist_vars, clampFields, mergeFields,
          JSVal.stringOr, ht, hf, hs]
  simp [handleWebhookAction, h1, h2, h3, h4, h5, h6, h7, h8, h9, ht, hf]

/-- Every call of `applyAndPersist` whose object carries no empty string as
`theme` or `font` keeps both non-empty. -/
theorem applyAndPersist_theme_font (sys : Sys) (p : Patch)
    (ht : sys.vars.theme ≠ "") (hf : sys.vars.font ≠ "")
    (hpt : p.theme ≠ JSVal.str "") (hpf : p.font ≠ JSVal.str "") :
    (applyAndPersist sys p).2.vars.theme ≠ "" ∧ (applyAndPersist sys p).2.vars.font ≠ "" := by
  rw [applyAndPersist_vars]
  constructor
  · cases h : p.theme with
    | str t =>
      have : t ≠ "" := fun e => hpt (by rw [h, e])
      simpa [clampFields, mergeFields, JSVal.stringOr, h] using this
    | _ => simpa [clampFields, mergeFields, JSVal.stringOr, h] using ht
  · cases h : p.font with
    | str t =>
      have : t ≠ "" := fun e => hpf (by rw [h, e])
      simpa [clampFields, mergeFields, JSVal.stringOr, h] using this
    | _ => simpa [clampFields, mergeFields, JSVal.stringOr, h] using hf

/-- C11, the code at the failing input: `applyAndPersist({ theme: "", font: "" })`
at a fresh start leads to a reachable system whose `theme` and `font` are the
empty string, while the dispatcher rejects an empty value for `theme` and for
`font`. -/
theorem applyAndPersist_stores_empty_theme :
    Reachable (applyAndPersist (startWith none)
      { theme := JSVal.str "", font := JSVal.str "" }).2 ∧
    (applyAndPersist (startWith none)
      { theme := JSVal.str "", font := JSVal.str "" }).2.vars.theme = "" ∧
    (applyAndPersist (startWith none)
      { theme := JSVal.str "", font := JSVal.str "" }).2.vars.font = "" ∧
    (handleWebhookAction (startWith none) "theme" (some "")).1 =
      Except.error "theme needs a value" ∧
    (handleWebhookAction (startWith none) "font" (some "")).1 =
      Except.error "font needs a value" := by
  refine ⟨?_, by decide!, by decide!, by decide!, by decide!⟩
  exact Reachable.step (Reachable.start none) (Step.apply _ _)

/-! ### C12: loading when the file does not exist -/

/-- C12: when `config.json` does not exist and the write and the read succeed,
`loadConfig` writes the default record to the file and returns `maxWin` 10,
`current` 0, `theme` `theme-default`, `font` `'Kanit', sans-serif`, `fontUrl`
empty, `showBg` true, `strokeWidth` 2 and `strokeColor` `#000000`, whatever the
variables held, and leaves that state in the variables. -/
theorem loadConfig_absent_storage (sys : Sys) (hf : sys.disk.file = none)
    (hw : sys.disk.writeFails = false) (hr : sys.disk.readFails = false) :
    (loadConfig sys).2.disk.file = some (FileContent.value defaultRecord) ∧
    (loadConfig sys).1 =
      { maxWin := JSNum.fin 10
        current := JSNum.fin 0
        theme := "theme-default"
        font := "'Kanit', sans-serif"
        fontUrl := ""
        showBg := true
        strokeWidth := JSNum.fin 2
        strokeColor := "#000000" } ∧
    (loadConfig sys).2.vars = (loadConfig sys).1 := by
  obtain ⟨vars, ⟨file, readFails, writeFails⟩, ws⟩ := sys
  simp only at hf hw hr
  subst hf hw hr
  refine ⟨?_, ?_, ?_⟩ <;>
    simp [loadConfig, ensureConfigFile, Disk.writeFileSync, Disk.readFileSync,
      stringify_initialState, defaultRecord, assignLoaded, JSVal.numberOr, JSVal.stringOr,
      JSVal.booleanOr, JSVal.finiteOr, orString]

/-- C12, witness: a fresh start without a file. -/
theorem loadConfig_absent_storage_witness :
    (startWith none).disk.file = none ∧ (startWith none).disk.writeFails = false ∧
    (startWith none).disk.readFails = false ∧
    (loadConfig (startWith none)).2.disk.file = some (FileContent.value defaultRecord) :=
  ⟨rfl, rfl, rfl, (loadConfig_absent_storage (startWith none) rfl rfl rfl).1⟩

/-! ### C13: loading fails soft -/

/-- C13: when reading the file throws (also because the file does not exist and
could not be created), or its text does not parse, or it parses to `null`,
`loadConfig` returns the state the variables hold and leaves the variables, and
the sockets, as they were. -/
theorem loadConfig_fails_soft (sys : Sys)
    (h : sys.disk.readFails = true ∨ sys.disk.file = some FileContent.unparseable ∨
      sys.disk.file = some FileContent.null ∨
      (sys.disk.file = none ∧ sys.disk.writeFails = true)) :
    (loadConfig sys).1 = sys.vars ∧ (loadConfig sys).2.vars = sys.vars ∧
    (loadConfig sys).2.wsClients = sys.wsClients := by
  have key : ∀ cfg, (ensureConfigFile sys.disk).readFileSync ≠ some (FileContent.value cfg) := by
    intro cfg
    rcases h with h | h | h | ⟨h1, h2⟩
    · simp [Disk.readFileSync, ensureConfigFile_readFails, h]
    · cases hr : sys.disk.readFails <;> simp [Disk.readFileSync, ensureConfigFile, h, hr]
    · cases hr : sys.disk.readFails <;> simp [Disk.readFileSync, ensureConfigFile, h, hr]
    · cases hr : sys.disk.readFails <;>
        simp [Disk.readFileSync, ensureConfigFile, Disk.writeFileSync, h1, h2, hr]
  rw [loadConfig_of_not_value sys key]
  exact ⟨rfl, rfl, rfl⟩

/-- C13, witness: a file holding `null` at a fresh start. -/
theorem loadConfig_fails_soft_witness :
    (startWith (some FileContent.null)).disk.file = some FileContent.null ∧
    (loadConfig (startWith (some FileContent.null))).1 = initialState :=
  ⟨rfl, (loadConfig_fails_soft (startWith (some FileContent.null)) (Or.inr (Or.inr (Or.inl rfl)))).1⟩

/-! ### C14: registering and removing a session -/

/-- C14: in every reachable system, with `last` the state `applyAndPersist` or
`loadConfig` returned last (the initial values when neither was called), a socket
that connects is appended to `wsClients` having been sent exactly one more
message, the envelope of type `state` with data `last`; the variables and the file
are untouched.  After its `close` no socket of `wsClients` is that socket, the
other sockets are as before when it was not on the list already, a second
`close` changes nothing, and `close` of a socket that is not on the list changes
nothing. -/
theorem onConnection_snapshot (sys : Sys) (last : OverlayState) (ws : Session)
    (h : ReachedWith sys last) :
    (onConnection sys ws).wsClients =
      sys.wsClients ++
        [{ id := ws.id, readyState := ws.readyState,
           sent := ws.sent ++ [{ type := "state", data := stringify last }] }] ∧
    (onConnection sys ws).vars = sys.vars ∧
    (onConnection sys ws).disk = sys.disk ∧
    (∀ c ∈ (onClose (onConnection sys ws) ws).wsClients, c.id ≠ ws.id) ∧
    ((∀ c ∈ sys.wsClients, c.id ≠ ws.id) →
      (onClose (onConnection sys ws) ws).wsClients = sys.wsClients) ∧
    onClose (onClose (onConnection sys ws) ws) ws = onClose (onConnection sys ws) ws ∧
    (∀ t : Sys, (∀ c ∈ t.wsClients, c.id ≠ ws.id) → onClose t ws = t) := by
  have hv := reachedWith_vars h
  refine ⟨?_, rfl, rfl, ?_, ?_, ?_, ?_⟩
  · simp [onConnection, Session.send, hv]
  · intro c hc
    simp only [onClose, List.mem_filter, bne_iff_ne, ne_eq] at hc
    exact hc.2
  · intro hfresh
    simp only [onClose, onConnection, Session.send, List.filter_append]
    have : sys.wsClients.filter (fun c => c.id != ws.id) = sys.wsClients := by
      rw [List.filter_eq_self]
      intro c hc
      simpa using hfresh c hc
    simp [this]
  · simp [onClose, List.filter_filter]
  · intro t ht
    have : t.wsClients.filter (fun c => c.id != ws.id) = t.wsClients := by
      rw [List.filter_eq_self]
      intro c hc
      simpa using ht c hc
    simp [onClose, this]

/-- C14, witness: a socket connecting after `applyAndPersist({ current: 3 })` at a
fresh start. -/
theorem onConnection_snapshot_witness :
    ReachedWith (applyAndPersist (startWith none) { current := JSVal.num (JSNum.fin 3) }).2
      (applyAndPersist (startWith none) { current := JSVal.num (JSNum.fin 3) }).1 ∧
    (onConnection (applyAndPersist (startWith none) { current := JSVal.num (JSNum.fin 3) }).2
        { id := 7, readyState := 1, sent := [] }).wsClients =
      (applyAndPersist (startWith none) { current := JSVal.num (JSNum.fin 3) }).2.wsClients ++
        [{ id := 7, readyState := 1,
           sent := [] ++ [{ type := "state", data := (stringify
             (applyAndPersist (startWith none) { current := JSVal.num (JSNum.fin 3) }).1) }] }] :=
  ⟨ReachedWith.apply _ (ReachedWith.start none),
   (onConnection_snapshot _ _ { id := 7, readyState := 1, sent := [] }
     (ReachedWith.apply _ (ReachedWith.start none))).1⟩

/-! ### C15: `bg` -/

/-- C15, counterexample: in the state read from a file with `maxWin` 0 and
`strokeWidth` 50, `bg` with argument `1` changes `maxWin` to 1 and `strokeWidth`
to 12. -/
theorem bg_changes_out_of_range_fields :
    afterEditedFile.vars.maxWin = JSNum.fin 0 ∧
    afterEditedFile.vars.strokeWidth = JSNum.fin 50 ∧
    (handleWebhookAction afterEditedFile "bg" (some "1")).2.vars.maxWin = JSNum.fin 1 ∧
    (handleWebhookAction afterEditedFile "bg" (some "1")).2.vars.strokeWidth = JSNum.fin 12 := by
  decide!

/-- C15, amended: in a state with `maxWin >= 1` and `0 <= strokeWidth <= 12`,
`bg` never fails and returns the state it leaves in the variables; `showBg` is
true exactly when there is an argument whose lower case is `1`, `true` or `on`,
and false otherwise, as for a missing argument; the seven other fields are as
they were. -/
theorem bg_showBg (sys : Sys) (rawArg : Option String) (hr : sys.vars.InRange) :
    (handleWebhookAction sys "bg" rawArg).1 =
      Except.ok (handleWebhookAction sys "bg" rawArg).2.vars ∧
    ((handleWebhookAction sys "bg" rawArg).2.vars.showBg = true ↔
      ∃ s, rawArg = some s ∧
        (toLowerCase s = "1" ∨ toLowerCase s = "true" ∨ toLowerCase s = "on")) ∧
    ((handleWebhookAction sys "bg" rawArg).2.vars.showBg = false ↔
      ¬ ∃ s, rawArg = some s ∧
        (toLowerCase s = "1" ∨ toLowerCase s = "true" ∨ toLowerCase s = "on")) ∧
    ((handleWebhookAction sys "bg" rawArg).2.vars.maxWin = sys.vars.maxWin ∧
      (handleWebhookAction sys "bg" rawArg).2.vars.current = sys.vars.current ∧
      (handleWebhookAction sys "bg" rawArg).2.vars.theme = sys.vars.theme ∧
      (handleWebhookAction sys "bg" rawArg).2.vars.font = sys.vars.font ∧
      (handleWebhookAction sys "bg" rawArg).2.vars.fontUrl = sys.vars.fontUrl ∧
      (handleWebhookAction sys "bg" rawArg).2.vars.strokeWidth = sys.vars.strokeWidth ∧
      (handleWebhookAction sys "bg" rawArg).2.vars.strokeColor = sys.vars.strokeColor) ∧
    (handleWebhookAction (startWith none) "bg" (some "TRUE")).2.vars.showBg = true ∧
    (handleWebhookAction (startWith none) "bg" (some "On")).2.vars.showBg = true ∧
    (handleWebhookAction (startWith none) "bg" (some "yes")).2.vars.showBg = false ∧
    (handleWebhookAction (startWith none) "bg" none).2.vars.showBg = false := by
  obtain ⟨hmax, hlo, hhi⟩ := hr
  have hshow : (handleWebhookAction sys "bg" rawArg).2.vars.showBg = true ↔
      ∃ s, rawArg = some s ∧
        (toLowerCase s = "1" ∨ toLowerCase s = "true" ∨ toLowerCase s = "on") := by
    rw [handleWebhookAction_bg, applyAndPersist_vars]
    cases rawArg with
    | none =>
      simp [clampFields, mergeFields, JSVal.booleanOr, orString, toLowerCase_empty]
    | some s =>
      by_cases h : s = ""
      · subst h
        simp [clampFields, mergeFields, JSVal.booleanOr, orString, toLowerCase_empty]
      · simp [clampFields, mergeFields, JSVal.booleanOr, orString, h, or_assoc]
  refine ⟨?_, hshow, ?_, ?_, by decide!, by decide!, by decide!, by decide!⟩
  · rw [handleWebhookAction_bg, applyAndPersist_vars, applyAndPersist_fst]
  · rw [← hshow]
    cases (handleWebhookAction sys "bg" rawArg).2.vars.showBg <;> simp
  · rw [handleWebhookAction_bg, applyAndPersist_vars]
    simp [clampFields, mergeFields, JSVal.finiteOr, JSVal.stringOr,
      clampMaxWin_of_ge _ hmax, clampStrokeWidth_of_range _ hlo hhi]

/-- C15, witness: `bg` with `TRUE` at a fresh start does not fail. -/
theorem bg_showBg_witness :
    (startWith none).vars.InRange ∧
    (handleWebhookAction (startWith none) "bg" (some "TRUE")).1 =
      Except.ok (handleWebhookAction (startWith none) "bg" (some "TRUE")).2.vars :=
  ⟨initialState_inRange, (bg_showBg (startWith none) (some "TRUE") initialState_inRange).1⟩

/-! ### C16: reading the snapshot -/

/-- C16, counterexample: with the variables at their initial values and a file
edited to hold `current` 7, `GET /api/config` returns `current` 7, not the 0 of
the variables, and leaves 7 in the variables; and with no file, it creates the
file. -/
theorem getApiConfig_reads_storage :
    afterUnseenEdit.vars.current = JSNum.fin 0 ∧
    (getApiConfig afterUnseenEdit).1.current = JSNum.fin 7 ∧
    (getApiConfig afterUnseenEdit).2.vars.current = JSNum.fin 7 ∧
    (startWith none).disk.file = none ∧
    (getApiConfig (startWith none)).2.disk.file = some (FileContent.value defaultRecord) := by
  decide!

/-- C16, amended: `GET /api/config` runs `loadConfig`.  When the read succeeds:
if the file holds the record of the state in the variables, it returns that
state and leaves the variables, the file and the sockets as they were; if the
file holds any parsed object, it returns the state it leaves in the variables,
in which `maxWin` and `current` are the stored value when that is a number,
`theme`, `font`, `fontUrl` and `strokeColor` the stored value when that is a
string, `showBg` the stored value when that is a boolean and `strokeWidth` the
stored value when that is a finite number, each field being as it was otherwise,
and the file and the sockets are untouched; if the file does not exist and can
be written, it creates it with the default record and returns the initial
values. -/
theorem getApiConfig_reload (sys : Sys) (hr : sys.disk.readFails = false) :
    (sys.disk.file = some (FileContent.value (stringify sys.vars)) →
      getApiConfig sys = (sys.vars, sys)) ∧
    (∀ cfg, sys.disk.file = some (FileContent.value cfg) →
      (getApiConfig sys).2.vars = (getApiConfig sys).1 ∧
      (getApiConfig sys).2.disk = sys.disk ∧
      (getApiConfig sys).2.wsClients = sys.wsClients ∧
      ((∀ n, cfg.maxWin = JSVal.num n → (getApiConfig sys).1.maxWin = n) ∧
        ((∀ n, cfg.maxWin ≠ JSVal.num n) → (getApiConfig sys).1.maxWin = sys.vars.maxWin)) ∧
      ((∀ n, cfg.current = JSVal.num n → (getApiConfig sys).1.current = n) ∧
        ((∀ n, cfg.current ≠ JSVal.num n) →
          (getApiConfig sys).1.current = sys.vars.current)) ∧
      ((∀ t, cfg.theme = JSVal.str t → (getApiConfig sys).1.theme = t) ∧
        ((∀ t, cfg.theme ≠ JSVal.str t) → (getApiConfig sys).1.theme = sys.vars.theme)) ∧
      ((∀ t, cfg.font = JSVal.str t → (getApiConfig sys).1.font = t) ∧
        ((∀ t, cfg.font ≠ JSVal.str t) → (getApiConfig sys).1.font = sys.vars.font)) ∧
      ((∀ t, cfg.fontUrl = JSVal.str t → (getApiConfig sys).1.fontUrl = t) ∧
        ((∀ t, cfg.fontUrl ≠ JSVal.str t) →
          (getApiConfig sys).1.fontUrl = sys.vars.fontUrl)) ∧
      ((∀ b, cfg.showBg = JSVal.bool b → (getApiConfig sys).1.showBg = b) ∧
        ((∀ b, cfg.showBg ≠ JSVal.bool b) → (getApiConfig sys).1.showBg = sys.vars.showBg)) ∧
      ((∀ q, cfg.strokeWidth = JSVal.num (JSNum.fin q) →
          (getApiConfig sys).1.strokeWidth = JSNum.fin q) ∧
        ((∀ q, cfg.strokeWidth ≠ JSVal.num (JSNum.fin q)) →
          (getApiConfig sys).1.strokeWidth = sys.vars.strokeWidth)) ∧
      ((∀ t, cfg.strokeColor = JSVal.str t → (getApiConfig sys).1.strokeColor = t) ∧
        ((∀ t, cfg.strokeColor ≠ JSVal.str t) →
          (getApiConfig sys).1.strokeColor = sys.vars.strokeColor))) ∧
    (sys.disk.file = none → sys.disk.writeFails = false →
      (getApiConfig sys).2.disk.file = some (FileContent.value defaultRecord) ∧
      (getApiConfig sys).1 = initialState) := by
  obtain ⟨vars, ⟨file, readFails, writeFails⟩, ws⟩ := sys
  simp only at hr
  subst hr
  refine ⟨?_, ?_, ?_⟩
  · intro h
    simp only at h
    subst h
    simp [getApiConfig, loadConfig, ensureConfigFile, Disk.readFileSync, assignLoaded_stringify]
  · intro cfg h
    simp only at h
    subst h
    have e : getApiConfig
        { vars := vars,
          disk := { file := some (FileContent.value cfg), readFails := false,
                    writeFails := writeFails },
          wsClients := ws } =
        (assignLoaded vars cfg,
          { vars := assignLoaded vars cfg,
            disk := { file := some (FileContent.value cfg), readFails := false,
                      writeFails := writeFails },
            wsClients := ws }) := by
      simp [getApiConfig, loadConfig, ensureConfigFile, Disk.readFileSync]
    rw [e]
    refine ⟨rfl, rfl, rfl, ⟨?_, ?_⟩, ⟨?_, ?_⟩, ⟨?_, ?_⟩, ⟨?_, ?_⟩, ⟨?_, ?_⟩, ⟨?_, ?_⟩,
      ⟨?_, ?_⟩, ⟨?_, ?_⟩⟩
    · intro n h; simp [assignLoaded, h, JSVal.numberOr]
    · intro h
      cases hv : cfg.maxWin with
      | num n => exact absurd hv (h n)
      | _ => simp [assignLoaded, hv, JSVal.numberOr]
    · intro n h; simp [assignLoaded, h, JSVal.numberOr]
    · intro h
      cases hv : cfg.current with
      | num n => exact absurd hv (h n)
      | _ => simp [assignLoaded, hv, JSVal.numberOr]
    · intro t h; simp [assignLoaded, h, JSVal.stringOr]
    · intro h
      cases hv : cfg.theme with
      | str t => exact absurd hv (h t)
      | _ => simp [assignLoaded, hv, JSVal.stringOr]
    · intro t h; simp [assignLoaded, h, JSVal.stringOr]
    · intro h
      cases hv : cfg.font with
      | str t => exact absurd hv (h t)
      | _ => simp [assignLoaded, hv, JSVal.stringOr]
    · intro t h; simp [assignLoaded, h, orString_self]
    · intro h
      cases hv : cfg.fontUrl with
      | str t => exact absurd hv (h t)
      | _ => simp [assignLoaded, hv]
    · intro b h; simp [assignLoaded, h, JSVal.booleanOr]
    · intro h
      cases hv : cfg.showBg with
      | bool b => exact absurd hv (h b)
      | _ => simp [assignLoaded, hv, JSVal.booleanOr]
    · intro q h; simp [assignLoaded, h, JSVal.finiteOr]
    · intro h
      cases hv : cfg.strokeWidth with
      | num n =>
        cases n with
        | fin q => exact absurd hv (h q)
        | _ => simp [assignLoaded, hv, JSVal.finiteOr]
      | _ => simp [assignLoaded, hv, JSVal.finiteOr]
    · intro t h; simp [assignLoaded, h, JSVal.stringOr]
    · intro h
      cases hv : cfg.strokeColor with
      | str t => exact absurd hv (h t)
      | _ => simp [assignLoaded, hv, JSVal.stringOr]
  · intro h hw
    simp only at h hw
    subst h hw
    constructor
    · simp [getApiConfig, loadConfig, ensureConfigFile, Disk.readFileSync, Disk.writeFileSync,
        stringify_initialState]
    · have e : (getApiConfig
          { vars := vars, disk := { file := none, readFails := false, writeFails := false },
            wsClients := ws }).1 =
          { maxWin := JSNum.fin 10
            current := JSNum.fin 0
            theme := "theme-default"
            font := "'Kanit', sans-serif"
            fontUrl := ""
            showBg := true
            strokeWidth := JSNum.fin 2
            strokeColor := "#000000" } := by
        simp [getApiConfig, loadConfig, ensureConfigFile, Disk.writeFileSync,
          Disk.readFileSync, stringify_initialState, defaultRecord, assignLoaded,
          JSVal.numberOr, JSVal.stringOr, JSVal.booleanOr, JSVal.finiteOr, orString]
      exact e

/-- C16, witness: with the variables at their initial values and the file edited
to hold `current` 7, `GET /api/config` returns `current` 7 and the `theme` of the
variables. -/
theorem getApiConfig_reload_witness :
    afterUnseenEdit.disk.readFails = false ∧
    afterUnseenEdit.disk.file =
      some (FileContent.value { current := JSVal.num (JSNum.fin 7) }) ∧
    (getApiConfig afterUnseenEdit).1.current = JSNum.fin 7 ∧
    (getApiConfig afterUnseenEdit).1.theme = "theme-default" :=
  ⟨rfl, rfl,
   ((getApiConfig_reload afterUnseenEdit rfl).2.1 { current := JSVal.num (JSNum.fin 7) }
     rfl).2.2.2.2.1.1 (JSNum.fin 7) rfl,
   ((getApiConfig_reload afterUnseenEdit rfl).2.1 { current := JSVal.num (JSNum.fin 7) }
     rfl).2.2.2.2.2.1.2 (by intro t; simp)⟩

/-! ### C17: two requests at once -/

/-- Two `win_plus` with step 1, one after the other, take `current` from 0 to 2. -/
theorem win_plus_twice :
    (handleWebhookAction (handleWebhookAction (startWith none) "win_plus" (some "1")).2
      "win_plus" (some "1")).2.vars.current = JSNum.fin 2 := by
  decide!

/-! ### C18: `applyAndPersist` and `saveConfig` -/

/-- C18: `applyAndPersist(p)` returns what `saveConfig(p)` returns and leaves the
same variables and the same file; the system after it is the system after
`saveConfig(p)` with the broadcast done, and `saveConfig` itself sends nothing. -/
theorem applyAndPersist_eq_saveConfig (sys : Sys) (p : Patch) :
    (applyAndPersist sys p).1 = (saveConfig sys p).1 ∧
    (applyAndPersist sys p).2.vars = (saveConfig sys p).2.vars ∧
    (applyAndPersist sys p).2.disk = (saveConfig sys p).2.disk ∧
    (applyAndPersist sys p).2 = broadcastState (saveConfig sys p).2 ∧
    (saveConfig sys p).2.wsClients = sys.wsClients := by
  have h : saveConfig sys (mergeFields sys.vars p).toPatch = saveConfig sys p := by
    simp only [saveConfig, mergeFields_toPatch]
  refine ⟨?_, ?_, ?_, ?_, ?_⟩
  · simp only [applyAndPersist, h]
  · simp only [applyAndPersist, h, broadcastState]
  · simp only [applyAndPersist, h, broadcastState]
  · simp only [applyAndPersist, h]
  · simp only [saveConfig]
    cases sys.disk.writeFileSync _ <;> rfl

/-! ### C19: `win_plus` then `win_minus` -/

/-- C19, counterexample: after `set_current` with `9007199254740992`, `win_plus`
with `1` leaves `current` at 9007199254740992 and the following `win_minus` with
`1` gives 9007199254740991. -/
theorem win_plus_minus_not_restored :
    atTwoPow53.vars.current = JSNum.fin 9007199254740992 ∧
    (handleWebhookAction atTwoPow53 "win_plus" (some "1")).2.vars.current =
      JSNum.fin 9007199254740992 ∧
    (handleWebhookAction (handleWebhookAction atTwoPow53 "win_plus" (some "1")).2
      "win_minus" (some "1")).2.vars.current = JSNum.fin 9007199254740991 := by
  decide!

/-- C19, amended: when `current` is an integer `c` of magnitude at most `2 ^ 53`
and the step `k` (the integer read in the argument, or 1 when none is read or the
one read is beyond the doubles) is such that `k`, `c + k` and `c - k` have
magnitude at most `2 ^ 53`, `win_minus` after `win_plus` with the same argument,
and `win_plus` after `win_minus`, give back `current` `c`. -/
theorem win_plus_minus_restores (sys : Sys) (rawArg : Option String) (c k : ℤ)
    (hc : sys.vars.current = JSNum.fin (c : ℚ)) (hcb : |c| ≤ 2 ^ 53) (hk : |k| ≤ 2 ^ 53)
    (hstep : leadingInteger rawArg = some k ∨ (leadingInteger rawArg = none ∧ k = 1) ∨
      ((∃ z : ℤ, leadingInteger rawArg = some z ∧
        (2 : ℚ) ^ 1024 - (2 : ℚ) ^ 970 ≤ |(z : ℚ)|) ∧ k = 1))
    (hp : |c + k| ≤ 2 ^ 53) (hm : |c - k| ≤ 2 ^ 53) :
    (handleWebhookAction (handleWebhookAction sys "win_plus" rawArg).2
      "win_minus" rawArg).2.vars.current = sys.vars.current ∧
    (handleWebhookAction (handleWebhookAction sys "win_minus" rawArg).2
      "win_plus" rawArg).2.vars.current = sys.vars.current := by
  have hs := step_of_leadingInteger rawArg k hk hstep
  have h1 : (handleWebhookAction sys "win_plus" rawArg).2.vars.current =
      JSNum.fin ((c + k : ℤ) : ℚ) := by
    rw [win_plus_current sys rawArg _ hs, hc, add_intCast c k hp]
    simp [JSNum.isFinite]
  have h2 : (handleWebhookAction sys "win_minus" rawArg).2.vars.current =
      JSNum.fin ((c - k : ℤ) : ℚ) := by
    rw [win_minus_current sys rawArg _ hs, hc, sub_intCast c k hm]
    simp [JSNum.isFinite]
  constructor
  · rw [win_minus_current _ rawArg _ hs, h1, sub_intCast (c + k) k (by simpa using hcb), hc]
    simp [JSNum.isFinite]
  · rw [win_plus_current _ rawArg _ hs, h2, add_intCast (c - k) k (by simpa using hcb), hc]
    simp [JSNum.isFinite]

/-- C19, witness: at `current` 5 with argument `3`. -/
theorem win_plus_minus_restores_witness :
    (startAt 5).vars.current = JSNum.fin ((5 : ℤ) : ℚ) ∧
    leadingInteger (some "3") = some 3 ∧
    (handleWebhookAction (handleWebhookAction (startAt 5) "win_plus" (some "3")).2
      "win_minus" (some "3")).2.vars.current = (startAt 5).vars.current :=
  ⟨by decide!, by decide,
   (win_plus_minus_restores (startAt 5) (some "3") 5 3 (by decide!) (by decide) (by decide)
     (Or.inl (by decide)) (by decide) (by decide)).1⟩

end WinOverlay
